import Mathlib

/-!
Shallow embedding of the traffic-simulation library (graph.py, vehicle.py,
fleet.py, traffic_monitor.py) and proofs about it.

Conventions of the embedding:
- Python floats are modelled as rationals.
- Python lists, deques and (insertion-ordered) dicts are modelled as Lean
  lists; dictionary lookups become list searches that preserve insertion
  order.
- Python object identity of Intersection and Road never matters to the
  modelled code: the classes define equality by id, and the code compares
  ids; all comparisons below are by the id field, exactly as the source.
- Randomness (random.expovariate, random.uniform, random.choice) is passed
  in explicitly as arguments where the modelled function draws it.
- A Python method that can raise an uncaught exception on the modelled
  control path is embedded with an Option or Except result, where none /
  error marks the raise.
-/

set_option maxHeartbeats 1000000

namespace TrafficSim

/-- States of a signal light (graph.py, class TrafficLightState). -/
inductive TrafficLightState where
  | green
  | red
  deriving DecidableEq, Repr

/-- One signal phase: the approach directions that are allowed to proceed,
and the duration of the phase in seconds (graph.py, class TrafficLightPhase). -/
structure TrafficLightPhase where
  allowed_directions : List Nat
  duration : ℚ
  deriving DecidableEq, Repr

/-- Phase-based signal controller state (graph.py, class
TrafficLightController: fields phases, current_phase_index, time_in_phase). -/
structure TrafficLightController where
  phases : List TrafficLightPhase
  current_phase_index : Nat
  time_in_phase : ℚ
  deriving DecidableEq, Repr

namespace TrafficLightController

/-- graph.py lines 75-83, TrafficLightController.update: add dt to the time
in the current phase; when it reaches the duration of the current phase,
advance the index modulo the phase count and reset the time to zero.
Indexing self.phases with an out-of-range index would raise in Python; that
cannot happen for the states the claims quantify over, and the embedding
then leaves the index unchanged. -/
def update (c : TrafficLightController) (delta_time : ℚ) :
    TrafficLightController :=
  let t := c.time_in_phase + delta_time
  match c.phases[c.current_phase_index]? with
  | none => { c with time_in_phase := t }
  | some current_phase =>
    if t ≥ current_phase.duration then
      { c with current_phase_index := (c.current_phase_index + 1) % c.phases.length,
               time_in_phase := 0 }
    else
      { c with time_in_phase := t }

/-- graph.py lines 85-96, TrafficLightController.is_green_for_direction. -/
def is_green_for_direction (c : TrafficLightController)
    (from_intersection_id : Nat) : Bool :=
  match c.phases[c.current_phase_index]? with
  | none => false
  | some current_phase => current_phase.allowed_directions.contains from_intersection_id

/-- graph.py lines 98-108, TrafficLightController.is_red_for_direction. -/
def is_red_for_direction (c : TrafficLightController)
    (from_intersection_id : Nat) : Bool :=
  ! c.is_green_for_direction from_intersection_id

end TrafficLightController

/-- Legacy signal (graph.py, dataclass TrafficLight). -/
structure TrafficLight where
  state : TrafficLightState := .green
  green_duration : ℚ := 10
  red_duration : ℚ := 5
  time_in_state : ℚ := 0
  allowed_directions : Option (List Nat) := none
  deriving DecidableEq, Repr

namespace TrafficLight

/-- graph.py line 137-139, TrafficLight.is_red. -/
def is_red (l : TrafficLight) : Bool := l.state == .red

/-- graph.py line 141-143, TrafficLight.is_green. -/
def is_green (l : TrafficLight) : Bool := l.state == .green

/-- graph.py lines 145-164, TrafficLight.is_red_for_direction. -/
def is_red_for_direction (l : TrafficLight) (from_intersection_id : Nat) : Bool :=
  match l.allowed_directions with
  | none => l.is_red
  | some dirs =>
    if l.is_green && dirs.contains from_intersection_id then false else true

end TrafficLight

/-- Graph node (graph.py, dataclass Intersection). Python defines equality
and hashing of intersections by the id field alone; every comparison in the
modelled code is written on ids accordingly. -/
structure Intersection where
  id : Nat
  name : String := ""
  x : ℚ := 0
  y : ℚ := 0
  traffic_light : Option TrafficLight := none
  traffic_light_controller : Option TrafficLightController := none
  is_destination : Bool := true
  deriving DecidableEq, Repr

/-- Directed edge (graph.py, dataclass Road). The from and to fields hold the
intersection records, as in the source. -/
structure Road where
  id : Nat
  from_intersection : Intersection
  to_intersection : Intersection
  length : ℚ
  speed_limit : ℚ := 50
  lanes : Nat := 1
  deriving DecidableEq, Repr

/-- Directed road graph (graph.py, class RoadNetwork). The source keeps an
id-keyed dict of intersections, an id-keyed dict of roads, and an adjacency
dict from intersection id to the list of outgoing roads in creation order.
The embedding keeps the two value lists in creation order; the adjacency
list of an id is recovered by filtering the road list in order, which gives
exactly the creation-ordered adjacency list the source maintains. -/
structure RoadNetwork where
  intersections : List Intersection
  roads : List Road
  deriving DecidableEq, Repr

namespace RoadNetwork

/-- graph.py lines 300-304, RoadNetwork.get_outgoing_roads: the outgoing
roads of an intersection in creation order. (The Python method raises for an
id that was never added; the claims only query ids present in the network.) -/
def get_outgoing_roads (net : RoadNetwork) (intersection_id : Nat) : List Road :=
  net.roads.filter (fun r => r.from_intersection.id == intersection_id)

/-- graph.py lines 313-320, RoadNetwork.get_road_between: first outgoing road
of from_id whose endpoint has id to_id, none otherwise. -/
def get_road_between (net : RoadNetwork) (from_id to_id : Nat) : Option Road :=
  (net.get_outgoing_roads from_id).find? (fun r => r.to_intersection.id == to_id)

/-- graph.py lines 322-324, RoadNetwork.get_all_intersections. -/
def get_all_intersections (net : RoadNetwork) : List Intersection :=
  net.intersections

/-- The invariant RoadNetwork.add_road enforces (graph.py lines 274-277):
both endpoint records of every road are intersections of the network. -/
def WF (net : RoadNetwork) : Prop :=
  ∀ r ∈ net.roads,
    r.from_intersection ∈ net.intersections ∧ r.to_intersection ∈ net.intersections

instance (net : RoadNetwork) : Decidable net.WF := by
  unfold WF; infer_instance

end RoadNetwork

namespace PathFinder

/-- The body of the for-loop of vehicle.py lines 98-110 run over the whole
list of outgoing roads of the popped node: for each road, take its endpoint;
skip it when its id is already visited; otherwise extend the popped path by
it; return that extended path when the endpoint id is the goal id; otherwise
mark the id visited and enqueue the (endpoint, extended path) pair. The
result is (found path or none, visited after the loop, enqueued pairs in
order). -/
def process_roads (endI : Intersection) (path : List Intersection) :
    List Road → List Nat → List (Intersection × List Intersection) →
      Option (List Intersection) × List Nat × List (Intersection × List Intersection)
  | [], visited, enq => (none, visited, enq)
  | road :: rest, visited, enq =>
    let neighbor := road.to_intersection
    if neighbor.id ∈ visited then
      process_roads endI path rest visited enq
    else
      let new_path := path ++ [neighbor]
      if neighbor.id = endI.id then
        (some new_path, visited, enq)
      else
        process_roads endI path rest (visited ++ [neighbor.id])
          (enq ++ [(neighbor, new_path)])

/-- The while-loop of vehicle.py lines 94-110: pop the front of the FIFO
queue of (node, path to it) pairs, run its outgoing roads through
process_roads, return the found path if any, else loop with the new queue
and visited set. An empty queue means the goal is unreachable and yields the
empty list (the some-[] result). The fuel argument only bounds the
iteration count; find_shortest_path supplies enough fuel for the loop of a
well-formed network never to run out (proved below), so the none result
never occurs on the states the claims quantify over. -/
def bfs_loop (net : RoadNetwork) (endI : Intersection) :
    Nat → List (Intersection × List Intersection) → List Nat →
      Option (List Intersection)
  | 0, _, _ => none
  | _ + 1, [], _ => some []
  | fuel + 1, (current, path) :: queue, visited =>
    match process_roads endI path (net.get_outgoing_roads current.id) visited [] with
    | (some result, _, _) => some result
    | (none, visited2, enq) => bfs_loop net endI fuel (queue ++ enq) visited2

/-- vehicle.py lines 73-113, PathFinder.find_shortest_path: [start] when the
two ids coincide; otherwise breadth-first search from a queue holding
(start, [start]) and a visited set holding start.id; the empty list when the
search exhausts the queue. -/
def find_shortest_path (net : RoadNetwork) (start endI : Intersection) :
    List Intersection :=
  if start.id = endI.id then [start]
  else
    match bfs_loop net endI (net.intersections.length + 1) [(start, [start])]
        [start.id] with
    | some r => r
    | none => []

end PathFinder

/-- One directed hop between intersection ids: some road of the network
leads from the first id to the second. -/
def RoadNetwork.edge (net : RoadNetwork) (a b : Nat) : Prop :=
  ∃ r ∈ net.roads, r.from_intersection.id = a ∧ r.to_intersection.id = b

/-- Walks between intersection ids counted by their number of hops; the
true minimum hop count between two ids is the least n with a walk. -/
inductive RoadNetwork.Walk (net : RoadNetwork) : Nat → Nat → Nat → Prop where
  | nil (a : Nat) : RoadNetwork.Walk net a a 0
  | cons {a b e n : Nat} : net.edge a b → RoadNetwork.Walk net b e n →
      RoadNetwork.Walk net a e (n + 1)

namespace RoadNetwork

/-- A hop is exactly an entry of the outgoing-roads list. -/
theorem edge_iff_mem_outgoing (net : RoadNetwork) (a b : Nat) :
    net.edge a b ↔ ∃ r ∈ net.get_outgoing_roads a, r.to_intersection.id = b := by
  unfold edge get_outgoing_roads
  constructor
  · rintro ⟨r, hr, hfrom, hto⟩
    exact ⟨r, List.mem_filter.mpr ⟨hr, by simp [hfrom]⟩, hto⟩
  · rintro ⟨r, hr, hto⟩
    rcases List.mem_filter.mp hr with ⟨hmem, hfrom⟩
    exact ⟨r, hmem, by simpa using hfrom, hto⟩

/-- A walk extended by one hop at its end. -/
theorem Walk.snoc {net : RoadNetwork} {s u w n : Nat}
    (hw : net.Walk s u n) (he : net.edge u w) : net.Walk s w (n + 1) := by
  induction hw with
  | nil a => exact Walk.cons he (Walk.nil w)
  | cons h _ ih => exact Walk.cons h (ih he)

/-- A nonempty walk decomposes into a walk followed by one final hop. -/
theorem Walk.snoc_decomp {net : RoadNetwork} :
    ∀ {n s w : Nat}, net.Walk s w (n + 1) →
      ∃ u, net.Walk s u n ∧ net.edge u w := by
  intro n
  induction n with
  | zero =>
    intro s w hw
    rcases hw with _ | ⟨he, htail⟩
    rcases htail with _ | _
    exact ⟨s, Walk.nil s, he⟩
  | succ k ih =>
    intro s w hw
    rcases hw with _ | ⟨he, htail⟩
    rcases ih htail with ⟨u, hu, hue⟩
    exact ⟨u, Walk.cons he hu, hue⟩

/-- A walk of zero hops stays put. -/
theorem Walk.eq_of_zero {net : RoadNetwork} {s w : Nat}
    (hw : net.Walk s w 0) : w = s := by
  rcases hw with _ | _
  rfl

end RoadNetwork

/-- The id list of an intersection list is a path from s to e: nonempty,
starting at s, ending at e, every consecutive pair a hop of the network. -/
def IsPathTo (net : RoadNetwork) (s e : Nat) (p : List Intersection) : Prop :=
  p ≠ [] ∧ (p.map Intersection.id).head? = some s ∧
  (p.map Intersection.id).getLast? = some e ∧
  List.Chain' net.edge (p.map Intersection.id)

/-- A chained id list carries a walk of its length minus one. -/
theorem walk_of_chain (net : RoadNetwork) :
    ∀ (l : List Nat) (a b : Nat), l.head? = some a → l.getLast? = some b →
      List.Chain' net.edge l → net.Walk a b (l.length - 1) := by
  intro l
  induction l with
  | nil => intro a b ha _ _; cases ha
  | cons x t ih =>
    intro a b ha hb hc
    cases ha
    cases t with
    | nil =>
      simp only [List.getLast?_singleton, Option.some.injEq] at hb
      subst hb
      exact RoadNetwork.Walk.nil _
    | cons y t2 =>
      rcases List.chain'_cons.mp hc with ⟨hxy, hc2⟩
      have hw := ih y b rfl (by simpa using hb) hc2
      have := RoadNetwork.Walk.cons hxy hw
      simpa [Nat.succ_sub_one] using this

/-- A path yields a walk whose hop count is the node count minus one. -/
theorem IsPathTo.to_walk {net : RoadNetwork} {s e : Nat}
    {p : List Intersection} (h : IsPathTo net s e p) :
    net.Walk s e (p.length - 1) := by
  rcases h with ⟨_, hh, hl, hc⟩
  have := walk_of_chain net (p.map Intersection.id) s e hh hl hc
  simpa using this

/-- Extending a path by one hop at its end. -/
theorem IsPathTo.extend {net : RoadNetwork} {s : Nat} {x : Intersection}
    {p : List Intersection} (h : IsPathTo net s x.id p) (w : Intersection)
    (he : net.edge x.id w.id) : IsPathTo net s w.id (p ++ [w]) := by
  rcases h with ⟨hne, hh, hl, hc⟩
  refine ⟨by simp, ?_, ?_, ?_⟩
  · rcases p with _ | ⟨a, t⟩
    · cases hne rfl
    · simpa using hh
  · simp
  · rw [List.map_append]
    rw [List.chain'_append]
    refine ⟨hc, by simp, ?_⟩
    intro a ha b hb
    rw [hl, Option.mem_def, Option.some.injEq] at ha
    simp only [List.map_cons, List.map_nil, List.head?_cons, Option.mem_def,
      Option.some.injEq] at hb
    subst ha
    subst hb
    exact he

/-- The loop invariant of the breadth-first search of
PathFinder.find_shortest_path, at the top of each while iteration, for a
search from id s towards id e with queue Q and visited list V. -/
structure BfsInv (net : RoadNetwork) (s e : Nat)
    (Q : List (Intersection × List Intersection)) (V : List Nat) : Prop where
  s_mem : s ∈ V
  e_not_mem : e ∉ V
  valid : ∀ q ∈ Q, IsPathTo net s q.1.id q.2
  ends_mem : ∀ q ∈ Q, q.1.id ∈ V
  opt : ∀ q ∈ Q, ∀ n, net.Walk s q.1.id n → q.2.length ≤ n + 1
  mono : List.Pairwise (fun q1 q2 => q1.2.length ≤ q2.2.length) Q
  bound : ∀ x p rest, Q = (x, p) :: rest → ∀ q ∈ Q, q.2.length ≤ p.length + 1
  processed : ∀ v ∈ V, (∀ q ∈ Q, q.1.id ≠ v) → ∀ w, net.edge v w → w ∈ V

/-- The crossing bound: when the invariant holds with front entry (x, p),
any walk from s to a node outside the visited set has at least p.length
hops (one more hop than the front path has edges). The first moment a walk
leaves the visited set it must leave from a queued node, whose discovered
path is optimal and no shorter than the front path. -/
theorem BfsInv.cross {net : RoadNetwork} {s e : Nat} {x : Intersection}
    {p : List Intersection} {rest : List (Intersection × List Intersection)}
    {V : List Nat} (inv : BfsInv net s e ((x, p) :: rest) V) :
    ∀ n w, w ∉ V → net.Walk s w n → p.length ≤ n := by
  intro n
  induction n with
  | zero =>
    intro w hw hwalk
    rw [hwalk.eq_of_zero] at hw
    exact absurd inv.s_mem hw
  | succ k ih =>
    intro w hw hwalk
    rcases RoadNetwork.Walk.snoc_decomp hwalk with ⟨u, hu, hue⟩
    by_cases huV : u ∈ V
    · by_cases hq : ∃ q ∈ (x, p) :: rest, q.1.id = u
      · rcases hq with ⟨q, hqQ, hqid⟩
        have hopt := inv.opt q hqQ k (hqid ▸ hu)
        have hmin : p.length ≤ q.2.length := by
          rcases List.mem_cons.mp hqQ with h | h
          · rw [h]
          · exact (List.pairwise_cons.mp inv.mono).1 q h
        omega
      · push_neg at hq
        exact absurd (inv.processed u huV (fun q hqm => hq q hqm) w hue) hw
    · exact le_trans (ih u huV hu) (Nat.le_succ k)

/-- With an empty queue the invariant confines every walk from s inside
the visited set; since e is never visited, e is unreachable. -/
theorem BfsInv.unreachable_of_empty {net : RoadNetwork} {s e : Nat}
    {V : List Nat} (inv : BfsInv net s e [] V) :
    ∀ n, ¬ net.Walk s e n := by
  have hall : ∀ n w, net.Walk s w n → w ∈ V := by
    intro n
    induction n with
    | zero =>
      intro w hwalk
      rw [hwalk.eq_of_zero]
      exact inv.s_mem
    | succ k ih =>
      intro w hwalk
      rcases RoadNetwork.Walk.snoc_decomp hwalk with ⟨u, hu, hue⟩
      exact inv.processed u (ih u hu) (by simp) w hue
  intro n hwalk
  exact inv.e_not_mem (hall n e hwalk)

namespace PathFinder

/-- What one full pass of process_roads over the outgoing roads of the
popped node x with popped path p guarantees. V0 is the visited list at pop
time; V and enq are the running visited list and enqueued entries, which
start at V0 and [] for the pass bfs_loop makes. On a found result the
returned path extends p by one goal neighbor; on a none result the visited
list only grew, the goal stays unvisited, every enqueued entry carries a
valid path of length p.length + 1 to a node that was not visited at pop
time but is now, every new visited id has an enqueued entry, and every
processed road endpoint is visited. -/
theorem process_roads_spec (net : RoadNetwork) (endI : Intersection) (s : Nat)
    (x : Intersection) (p : List Intersection) (V0 : List Nat)
    (hval : IsPathTo net s x.id p) :
    ∀ (R : List Road) (V : List Nat)
      (enq : List (Intersection × List Intersection)),
      (∀ r ∈ R, r.from_intersection.id = x.id ∧ r ∈ net.roads) →
      (∀ v ∈ V0, v ∈ V) →
      endI.id ∉ V →
      (∀ q ∈ enq, IsPathTo net s q.1.id q.2 ∧ q.2.length = p.length + 1 ∧
        q.1.id ∉ V0 ∧ q.1.id ∈ V) →
      (∀ v ∈ V, v ∈ V0 ∨ ∃ q ∈ enq, q.1.id = v) →
      (match process_roads endI p R V enq with
       | (some found, _, _) =>
         ∃ w : Intersection, found = p ++ [w] ∧ w.id = endI.id ∧
           net.edge x.id w.id
       | (none, V2, enq2) =>
         (∀ v ∈ V, v ∈ V2) ∧
         endI.id ∉ V2 ∧
         (∀ q ∈ enq2, IsPathTo net s q.1.id q.2 ∧ q.2.length = p.length + 1 ∧
           q.1.id ∉ V0 ∧ q.1.id ∈ V2) ∧
         (∀ v ∈ V2, v ∈ V0 ∨ ∃ q ∈ enq2, q.1.id = v) ∧
         (∀ r ∈ R, r.to_intersection.id ∈ V2)) := by
  intro R
  induction R with
  | nil =>
    intro V enq _ hsub he hbundle hchar
    exact ⟨fun v hv => hv, he, hbundle, hchar, by simp⟩
  | cons road rest ih =>
    intro V enq hR hsub he hbundle hchar
    have hRrest : ∀ r ∈ rest, r.from_intersection.id = x.id ∧ r ∈ net.roads :=
      fun r hr => hR r (List.mem_cons_of_mem road hr)
    unfold process_roads
    dsimp only
    by_cases hvis : road.to_intersection.id ∈ V
    · rw [if_pos hvis]
      have hIH := ih V enq hRrest hsub he hbundle hchar
      rcases hpr : process_roads endI p rest V enq with ⟨res, V2, enq2⟩
      rw [hpr] at hIH
      rcases res with _ | found
      · rcases hIH with ⟨hsub2, he2, hb2, hc2, hr2⟩
        refine ⟨hsub2, he2, hb2, hc2, ?_⟩
        intro r hr
        rcases List.mem_cons.mp hr with h | h
        · rw [h]
          exact hsub2 _ hvis
        · exact hr2 r h
      · exact hIH
    · rw [if_neg hvis]
      by_cases hend : road.to_intersection.id = endI.id
      · rw [if_pos hend]
        exact ⟨road.to_intersection, rfl, hend,
          road, (hR road (List.mem_cons_self road rest)).2,
          (hR road (List.mem_cons_self road rest)).1, rfl⟩
      · rw [if_neg hend]
        have hedge : net.edge x.id road.to_intersection.id :=
          ⟨road, (hR road (List.mem_cons_self road rest)).2,
            (hR road (List.mem_cons_self road rest)).1, rfl⟩
        have hsub2 : ∀ v ∈ V0, v ∈ V ++ [road.to_intersection.id] :=
          fun v hv => List.mem_append_left _ (hsub v hv)
        have he2 : endI.id ∉ V ++ [road.to_intersection.id] := by
          simp only [List.mem_append, List.mem_singleton]
          rintro (h | h)
          · exact he h
          · exact hend h.symm
        have hbundle2 : ∀ q ∈ enq ++ [(road.to_intersection,
            p ++ [road.to_intersection])],
            IsPathTo net s q.1.id q.2 ∧ q.2.length = p.length + 1 ∧
            q.1.id ∉ V0 ∧ q.1.id ∈ V ++ [road.to_intersection.id] := by
          intro q hq
          rcases List.mem_append.mp hq with hq | hq
          · rcases hbundle q hq with ⟨h1, h2, h3, h4⟩
            exact ⟨h1, h2, h3, List.mem_append_left _ h4⟩
          · rcases List.mem_singleton.mp hq with rfl
            refine ⟨hval.extend _ hedge, by simp, ?_, by simp⟩
            intro h0
            exact hvis (hsub _ h0)
        have hchar2 : ∀ v ∈ V ++ [road.to_intersection.id],
            v ∈ V0 ∨ ∃ q ∈ enq ++ [(road.to_intersection,
              p ++ [road.to_intersection])], q.1.id = v := by
          intro v hv
          rcases List.mem_append.mp hv with hv | hv
          · rcases hchar v hv with h | ⟨q, hq, hid⟩
            · exact Or.inl h
            · exact Or.inr ⟨q, List.mem_append_left _ hq, hid⟩
          · rcases List.mem_singleton.mp hv with rfl
            exact Or.inr ⟨_, List.mem_append_right _ (List.mem_singleton_self _),
              rfl⟩
        have hIH := ih (V ++ [road.to_intersection.id])
          (enq ++ [(road.to_intersection, p ++ [road.to_intersection])])
          hRrest hsub2 he2 hbundle2 hchar2
        rcases hpr : process_roads endI p rest (V ++ [road.to_intersection.id])
          (enq ++ [(road.to_intersection, p ++ [road.to_intersection])]) with
          ⟨res, V2, enq2⟩
        rw [hpr] at hIH
        rcases res with _ | found
        · rcases hIH with ⟨hsub3, he3, hb3, hc3, hr3⟩
          refine ⟨?_, he3, hb3, hc3, ?_⟩
          · intro v hv
            exact hsub3 _ (List.mem_append_left _ hv)
          · intro r hr
            rcases List.mem_cons.mp hr with h | h
            · rw [h]
              exact hsub3 _ (List.mem_append_right _
                (List.mem_singleton_self _))
            · exact hr3 r h
        · exact hIH

end PathFinder

/-- The number of network intersection ids not yet visited; together with
the queue length it bounds the remaining loop iterations. -/
def unvisitedCount (net : RoadNetwork) (V : List Nat) : Nat :=
  ((net.intersections.map Intersection.id).filter (fun i => i ∉ V)).length

/-- Filtering with a pointwise smaller predicate keeps fewer elements. -/
theorem filter_length_mono {α : Type} (q1 q2 : α → Bool) :
    ∀ l : List α, (∀ a ∈ l, q1 a = true → q2 a = true) →
      (l.filter q1).length ≤ (l.filter q2).length := by
  intro l
  induction l with
  | nil => intro _; exact le_refl 0
  | cons a t ih =>
    intro h
    have ht := ih (fun b hb => h b (List.mem_cons_of_mem a hb))
    by_cases h1 : q1 a = true
    · rw [List.filter_cons_of_pos h1,
        List.filter_cons_of_pos (h a (List.mem_cons_self a t) h1)]
      simpa using ht
    · rw [List.filter_cons_of_neg (by simpa using h1)]
      by_cases h2 : q2 a = true
      · rw [List.filter_cons_of_pos h2]
        exact le_trans ht (by simp)
      · rw [List.filter_cons_of_neg (by simpa using h2)]
        exact ht

/-- Marking a member that fails the filter strictly shrinks it. -/
theorem filter_length_lt_of_mem {w : Nat} (V : List Nat) (hw : w ∉ V) :
    ∀ l : List Nat, w ∈ l →
      (l.filter (fun i => i ∉ V ++ [w])).length <
        (l.filter (fun i => i ∉ V)).length := by
  have hmono : ∀ l : List Nat,
      (l.filter (fun i => i ∉ V ++ [w])).length ≤
        (l.filter (fun i => i ∉ V)).length := by
    intro l
    apply filter_length_mono
    intro a _ ha
    simp only [decide_eq_true_eq, List.mem_append] at ha ⊢
    exact fun h => ha (Or.inl h)
  intro l
  induction l with
  | nil => intro h; cases h
  | cons a t ih =>
    intro hmem
    by_cases haw : a = w
    · subst haw
      rw [List.filter_cons_of_neg (by simp), List.filter_cons_of_pos
        (by simpa using hw)]
      exact Nat.lt_succ_of_le (hmono t)
    · rcases List.mem_cons.mp hmem with h | h
      · exact absurd h.symm haw
      · have hlt := ih h
        by_cases hain : a ∈ V
        · rw [List.filter_cons_of_neg (by simp [hain]),
            List.filter_cons_of_neg (by simp [hain])]
          exact hlt
        · rw [List.filter_cons_of_pos (by simp [hain, haw]),
            List.filter_cons_of_pos (by simpa using hain)]
          simpa using hlt

/-- Visiting a fresh network id strictly decreases the unvisited count. -/
theorem unvisitedCount_append_lt (net : RoadNetwork) (V : List Nat) (w : Nat)
    (hmem : w ∈ net.intersections.map Intersection.id) (hw : w ∉ V) :
    unvisitedCount net (V ++ [w]) < unvisitedCount net V :=
  filter_length_lt_of_mem V hw _ hmem

/-- A member of the network makes the unvisited count of a singleton
visited list strictly smaller than the intersection count. -/
theorem unvisitedCount_lt_length (net : RoadNetwork) (s : Nat)
    (hs : s ∈ net.intersections.map Intersection.id) :
    unvisitedCount net [s] < net.intersections.length := by
  unfold unvisitedCount
  have hlen : (net.intersections.map Intersection.id).length =
      net.intersections.length := List.length_map _ _
  rw [← hlen]
  generalize net.intersections.map Intersection.id = l at hs ⊢
  induction l with
  | nil => cases hs
  | cons a t ih =>
    rcases List.mem_cons.mp hs with h | h
    · subst h
      rw [List.filter_cons_of_neg (by simp)]
      exact Nat.lt_succ_of_le (List.length_filter_le _ t)
    · by_cases ha : a ∈ [s]
      · rw [List.filter_cons_of_neg (by simpa using ha)]
        exact Nat.lt_succ_of_le (le_of_lt (ih h))
      · rw [List.filter_cons_of_pos (by simpa using ha)]
        simpa using ih h

namespace PathFinder

/-- A none result of process_roads does not increase the sum of the
unvisited count and the number of enqueued entries: each fresh enqueue is
paid for by a freshly visited network id. -/
theorem process_roads_measure (net : RoadNetwork) (endI : Intersection)
    (p : List Intersection) :
    ∀ (R : List Road) (V : List Nat)
      (enq : List (Intersection × List Intersection)),
      (∀ r ∈ R, r.to_intersection.id ∈ net.intersections.map Intersection.id) →
      ∀ V2 enq2, process_roads endI p R V enq = (none, V2, enq2) →
        unvisitedCount net V2 + enq2.length ≤
          unvisitedCount net V + enq.length := by
  intro R
  induction R with
  | nil =>
    intro V enq _ V2 enq2 h
    unfold process_roads at h
    cases h
    exact le_refl _
  | cons road rest ih =>
    intro V enq hR V2 enq2 h
    have hRrest : ∀ r ∈ rest,
        r.to_intersection.id ∈ net.intersections.map Intersection.id :=
      fun r hr => hR r (List.mem_cons_of_mem road hr)
    unfold process_roads at h
    dsimp only at h
    by_cases hvis : road.to_intersection.id ∈ V
    · rw [if_pos hvis] at h
      exact ih V enq hRrest V2 enq2 h
    · rw [if_neg hvis] at h
      by_cases hend : road.to_intersection.id = endI.id
      · rw [if_pos hend] at h
        cases h
      · rw [if_neg hend] at h
        have hstep := ih (V ++ [road.to_intersection.id])
          (enq ++ [(road.to_intersection, p ++ [road.to_intersection])])
          hRrest V2 enq2 h
        have hdrop := unvisitedCount_append_lt net V road.to_intersection.id
          (hR road (List.mem_cons_self road rest)) hvis
        simp only [List.length_append, List.length_cons, List.length_nil] at hstep
        omega

/-- With fuel exceeding the measure, bfs_loop cannot run out of fuel. -/
theorem bfs_loop_some_of_lt (net : RoadNetwork) (endI : Intersection)
    (hwf : net.WF) :
    ∀ (fuel : Nat) (Q : List (Intersection × List Intersection))
      (V : List Nat),
      unvisitedCount net V + Q.length < fuel →
      bfs_loop net endI fuel Q V ≠ none := by
  intro fuel
  induction fuel with
  | zero =>
    intro Q V h
    omega
  | succ f ih =>
    intro Q V h
    rcases Q with _ | ⟨⟨x, p⟩, rest⟩
    · simp [bfs_loop]
    · have hroads : ∀ r ∈ net.get_outgoing_roads x.id,
          r.to_intersection.id ∈ net.intersections.map Intersection.id := by
        intro r hr
        have hmem : r ∈ net.roads := List.mem_of_mem_filter hr
        exact List.mem_map_of_mem _ ((hwf r hmem).2)
      rcases hpr : process_roads endI p (net.get_outgoing_roads x.id) V []
        with ⟨res, V2, enq2⟩
      rcases res with _ | found
      · have hmeasure := process_roads_measure net endI p _ V [] hroads
          V2 enq2 hpr
        simp only [List.length_nil, Nat.add_zero] at hmeasure
        have hlt : unvisitedCount net V2 + (rest ++ enq2).length < f := by
          simp only [List.length_append]
          simp only [List.length_cons] at h
          omega
        have hrec := ih (rest ++ enq2) V2 hlt
        simp only [bfs_loop, hpr]
        exact hrec
      · simp [bfs_loop, hpr]

/-- The result characterization of the search loop: under the invariant, a
some result is either the empty list with the goal unreachable, or a valid
path from s to the goal whose node count is at most one more than the hop
count of every walk from s to the goal (so its edge count is minimal). -/
theorem bfs_loop_spec (net : RoadNetwork) (endI : Intersection) (s : Nat) :
    ∀ (fuel : Nat) (Q : List (Intersection × List Intersection))
      (V : List Nat), BfsInv net s endI.id Q V →
      ∀ r, bfs_loop net endI fuel Q V = some r →
        (r = [] ∧ ∀ n, ¬ net.Walk s endI.id n) ∨
        (IsPathTo net s endI.id r ∧
          ∀ n, net.Walk s endI.id n → r.length ≤ n + 1) := by
  intro fuel
  induction fuel with
  | zero =>
    intro Q V _ r hr
    simp [bfs_loop] at hr
  | succ f ih =>
    intro Q V inv r hr
    rcases Q with _ | ⟨⟨x, p⟩, rest⟩
    · left
      simp only [bfs_loop, Option.some.injEq] at hr
      exact ⟨hr.symm, inv.unreachable_of_empty⟩
    · have hval : IsPathTo net s x.id p :=
        inv.valid _ (List.mem_cons_self _ _)
      have hR : ∀ rd ∈ net.get_outgoing_roads x.id,
          rd.from_intersection.id = x.id ∧ rd ∈ net.roads := by
        intro rd hrd
        rcases List.mem_filter.mp hrd with ⟨hmem, hfrom⟩
        exact ⟨by simpa using hfrom, hmem⟩
      have hspec := process_roads_spec net endI s x p V hval
        (net.get_outgoing_roads x.id) V [] hR (fun v hv => hv)
        inv.e_not_mem (by simp) (fun v hv => Or.inl hv)
      rcases hpr : process_roads endI p (net.get_outgoing_roads x.id) V []
        with ⟨res, V2, enq2⟩
      rw [hpr] at hspec
      rcases res with _ | found
      · rcases hspec with ⟨hsub2, he2, hb2, hc2, hr2⟩
        simp only [bfs_loop, hpr] at hr
        have hboundp : ∀ q ∈ (x, p) :: rest, q.2.length ≤ p.length + 1 :=
          inv.bound x p rest rfl
        have hmonop : ∀ q ∈ rest, p.length ≤ q.2.length :=
          (List.pairwise_cons.mp inv.mono).1
        have inv2 : BfsInv net s endI.id (rest ++ enq2) V2 := by
          refine ⟨hsub2 s inv.s_mem, he2, ?_, ?_, ?_, ?_, ?_, ?_⟩
          · intro q hq
            rcases List.mem_append.mp hq with hq | hq
            · exact inv.valid q (List.mem_cons_of_mem _ hq)
            · exact (hb2 q hq).1
          · intro q hq
            rcases List.mem_append.mp hq with hq | hq
            · exact hsub2 _ (inv.ends_mem q (List.mem_cons_of_mem _ hq))
            · exact (hb2 q hq).2.2.2
          · intro q hq n hwalk
            rcases List.mem_append.mp hq with hq | hq
            · exact inv.opt q (List.mem_cons_of_mem _ hq) n hwalk
            · rcases hb2 q hq with ⟨_, hlen, hnot, _⟩
              have := inv.cross n q.1.id hnot hwalk
              omega
          · rw [List.pairwise_append]
            refine ⟨inv.mono.of_cons, ?_, ?_⟩
            · apply List.pairwise_of_forall_mem_list
              intro a ha b hb
              rw [(hb2 a ha).2.1, (hb2 b hb).2.1]
            · intro a ha b hb
              rw [(hb2 b hb).2.1]
              exact hboundp a (List.mem_cons_of_mem _ ha)
          · intro y q rest2 heq qq hqq
            have hlen_le : qq.2.length ≤ p.length + 1 := by
              rcases List.mem_append.mp hqq with h | h
              · exact hboundp qq (List.mem_cons_of_mem _ h)
              · rw [(hb2 qq h).2.1]
            have hhead : p.length ≤ q.length := by
              have hq_mem : (y, q) ∈ rest ++ enq2 := by
                rw [heq]
                exact List.mem_cons_self _ _
              rcases List.mem_append.mp hq_mem with h | h
              · exact hmonop _ h
              · have := (hb2 _ h).2.1
                simp only at this
                omega
            omega
          · intro v hv hnoq w hedge
            by_cases hvV : v ∈ V
            · by_cases hvx : v = x.id
              · subst hvx
                rcases (net.edge_iff_mem_outgoing _ _).mp hedge with
                  ⟨rd, hrd, hto⟩
                rw [← hto]
                exact hr2 rd hrd
              · have hnone : ∀ q ∈ (x, p) :: rest, q.1.id ≠ v := by
                  intro q hq
                  rcases List.mem_cons.mp hq with h | h
                  · rw [h]
                    exact fun hc => hvx hc.symm
                  · exact hnoq q (List.mem_append_left _ h)
                exact hsub2 _ (inv.processed v hvV hnone w hedge)
            · rcases hc2 v hv with h | ⟨q, hq, hid⟩
              · exact absurd h hvV
              · exact absurd hid (hnoq q (List.mem_append_right _ hq))
        exact ih (rest ++ enq2) V2 inv2 r hr
      · right
        rcases hspec with ⟨w, hfw, hwid, hedge⟩
        simp only [bfs_loop, hpr, Option.some.injEq] at hr
        have hpath : IsPathTo net s endI.id found := by
          rw [hfw]
          have h1 := hval.extend w hedge
          rw [hwid] at h1
          exact h1
        have hlen : found.length = p.length + 1 := by
          rw [hfw]
          simp
        rw [← hr]
        refine ⟨hpath, ?_⟩
        intro n hwalk
        have := inv.cross n endI.id inv.e_not_mem hwalk
        omega

end PathFinder

/-- The invariant holds at loop entry: queue [(start, [start])], visited
[start.id], for distinct start and goal ids. -/
theorem bfs_initial_inv (net : RoadNetwork) (start endI : Intersection)
    (hne : start.id ≠ endI.id) :
    BfsInv net start.id endI.id [(start, [start])] [start.id] := by
  refine ⟨List.mem_singleton_self _, ?_, ?_, ?_, ?_, ?_, ?_, ?_⟩
  · simp only [List.mem_singleton]
    exact fun h => hne h.symm
  · intro q hq
    rcases List.mem_singleton.mp hq with rfl
    exact ⟨by simp, by simp, by simp, by simp⟩
  · intro q hq
    rcases List.mem_singleton.mp hq with rfl
    simp
  · intro q hq n _
    rcases List.mem_singleton.mp hq with rfl
    simp
  · simp
  · intro x p rest heq q hq
    rcases List.mem_singleton.mp hq with rfl
    have hx : p = [start] := by
      have := (List.cons.injEq _ _ _ _).mp heq.symm
      exact (Prod.mk.injEq _ _ _ _ |>.mp this.1).2
    simp [hx]
  · intro v hv hnoq w _
    rcases List.mem_singleton.mp hv with rfl
    exact absurd rfl (hnoq _ (List.mem_singleton_self _))

/-- Vehicle states (vehicle.py, class VehicleState). -/
inductive VehicleState where
  | idle
  | driving
  | arrived
  deriving DecidableEq, Repr

/-- vehicle.py, dataclass Vehicle. The id is an Int because spawned vehicles
carry the placeholder id -1 until the fleet assigns a real one. -/
structure Vehicle where
  id : Int
  current_intersection : Intersection
  speed : ℚ := 50
  state : VehicleState := .idle
  destination : Option Intersection := none
  path : List Intersection := []
  current_path_index : Nat := 0
  progress_on_road : ℚ := 0
  current_road : Option Road := none
  deriving DecidableEq, Repr

/-- vehicle.py, class VehicleController: a vehicle, the network, and the
list of other vehicles consulted for car-following. The Python constructor
(lines 119-129) takes exactly the vehicle and the network and starts
other_vehicles empty. -/
structure VehicleController where
  vehicle : Vehicle
  network : RoadNetwork
  other_vehicles : List Vehicle := []
  deriving DecidableEq, Repr

namespace VehicleController

/-- vehicle.py lines 131-172, VehicleController.set_destination. Mutation of
the controlled vehicle is modelled by returning the updated controller next
to the boolean result. When the destination id equals the current
intersection id the vehicle goes straight to arrived and only state and
destination are written (the path is not touched). Otherwise the path
found by PathFinder is installed, and for a path of more than one node the
first road is bound. -/
def set_destination (c : VehicleController) (destination : Intersection) :
    VehicleController × Bool :=
  if destination.id = c.vehicle.current_intersection.id then
    ({ c with vehicle := { c.vehicle with
        state := .arrived,
        destination := some destination } }, true)
  else
    let path := PathFinder.find_shortest_path c.network
      c.vehicle.current_intersection destination
    if path = [] then (c, false)
    else
      let v : Vehicle := { c.vehicle with
        destination := some destination,
        path := path,
        current_path_index := 0,
        state := .driving,
        progress_on_road := 0 }
      let v : Vehicle :=
        if path.length > 1 then
          match path[1]? with
          | some next_intersection =>
            let road := c.network.get_road_between v.current_intersection.id
              next_intersection.id
            { v with current_road := road }
          | none => v
        else v
      ({ c with vehicle := v }, true)

/-- vehicle.py lines 232-257, VehicleController._check_vehicle_ahead, as a
recursion over the list of other vehicles carrying the running minimum:
skip the vehicle itself (same id); for another vehicle whose current road
exists and has the id of our road and whose progress is strictly greater
than ours, fold its progress into the minimum. -/
def check_ahead_aux (self_id : Int) (self_road_id : Nat) (self_progress : ℚ) :
    List Vehicle → Option ℚ → Option ℚ
  | [], acc => acc
  | other :: rest, acc =>
    if other.id = self_id then
      check_ahead_aux self_id self_road_id self_progress rest acc
    else
      match other.current_road with
      | none => check_ahead_aux self_id self_road_id self_progress rest acc
      | some oroad =>
        if oroad.id = self_road_id ∧ other.progress_on_road > self_progress then
          match acc with
          | none => check_ahead_aux self_id self_road_id self_progress rest
              (some other.progress_on_road)
          | some m =>
            if other.progress_on_road < m then
              check_ahead_aux self_id self_road_id self_progress rest
                (some other.progress_on_road)
            else
              check_ahead_aux self_id self_road_id self_progress rest acc
        else check_ahead_aux self_id self_road_id self_progress rest acc

/-- vehicle.py lines 232-257: none when the vehicle has no current road,
else the minimal progress among other vehicles ahead on the same road. -/
def check_vehicle_ahead (c : VehicleController) : Option ℚ :=
  match c.vehicle.current_road with
  | none => none
  | some road =>
    check_ahead_aux c.vehicle.id road.id c.vehicle.progress_on_road
      c.other_vehicles none

/-- vehicle.py lines 191-197: whether the next intersection holds the
vehicle at a red light, asking the phase controller when present, else the
legacy light when present, else false. -/
def has_red_light (c : VehicleController) (next_intersection : Intersection) :
    Bool :=
  match next_intersection.traffic_light_controller with
  | some tlc => tlc.is_red_for_direction c.vehicle.current_intersection.id
  | none =>
    match next_intersection.traffic_light with
    | some tl => tl.is_red_for_direction c.vehicle.current_intersection.id
    | none => false

/-- vehicle.py lines 199-220: the progress committed at line 222, given the
current road and the upcoming intersection. Speed is converted from km/h to
m/s, the tentative progress is the old progress plus distance over road
length, the car-following clamp caps it at the progress of the vehicle
ahead minus the 3 percent safety margin, and the red-light clamp caps it
at 0.95. -/
def committed_progress (c : VehicleController) (road : Road)
    (next_intersection : Intersection) (delta_time : ℚ) : ℚ :=
  let speed_m_s := c.vehicle.speed * 1000 / 3600
  let distance_traveled := speed_m_s * delta_time
  let road_length := road.length
  let min_safe_distance : ℚ := 3 / 100
  let proposed0 := c.vehicle.progress_on_road + distance_traveled / road_length
  let proposed1 :=
    match c.check_vehicle_ahead with
    | some vehicle_ahead_progress =>
      min proposed0 (vehicle_ahead_progress - min_safe_distance)
    | none => proposed0
  if c.has_red_light next_intersection then min proposed1 (95 / 100) else proposed1

/-- vehicle.py lines 259-289, VehicleController._move_to_next_intersection:
advance the path index, move the vehicle to the path node at the new index,
carry progress minus one; on reaching the final path index become arrived
with progress zero and no road, otherwise bind the road to the following
path node (the source repeats that final road assignment twice verbatim,
with identical effect). The none result marks the IndexError Python would
raise when the new index is outside the path. -/
def move_to_next_intersection (c : VehicleController) :
    Option VehicleController :=
  let idx := c.vehicle.current_path_index + 1
  match c.vehicle.path[idx]? with
  | none => none
  | some cur =>
    let v : Vehicle := { c.vehicle with
      current_path_index := idx,
      current_intersection := cur,
      progress_on_road := c.vehicle.progress_on_road - 1 }
    if idx ≥ c.vehicle.path.length - 1 then
      some { c with vehicle := { v with
        state := .arrived, progress_on_road := 0, current_road := none } }
    else
      match c.vehicle.path[idx + 1]? with
      | none => none
      | some next_intersection =>
        some { c with vehicle := { v with
          current_road := c.network.get_road_between cur.id next_intersection.id } }

/-- When the move succeeds the path is unchanged, the index grew by one and
stayed inside the path. Used for the termination measure of drive_loop. -/
theorem move_to_next_intersection_index {c c2 : VehicleController}
    (h : c.move_to_next_intersection = some c2) :
    c2.vehicle.path = c.vehicle.path ∧
      c2.vehicle.current_path_index = c.vehicle.current_path_index + 1 ∧
      c.vehicle.current_path_index + 1 < c.vehicle.path.length := by
  unfold move_to_next_intersection at h
  rcases hx : c.vehicle.path[c.vehicle.current_path_index + 1]? with _ | cur
  · simp [hx] at h
  · have hlt := List.getElem?_eq_some_iff.mp hx
    rcases hlt with ⟨hlt, _⟩
    simp only [hx] at h
    split at h
    · cases h; exact ⟨rfl, rfl, hlt⟩
    · rcases hy : c.vehicle.path[c.vehicle.current_path_index + 1 + 1]? with _ | nxt
      · simp [hy] at h
      · simp only [hy] at h
        cases h; exact ⟨rfl, rfl, hlt⟩

/-- vehicle.py lines 224-230, the while-loop at the end of
VehicleController.update: while the progress is at least 1, move to the
next intersection, stopping when the vehicle arrived. The none result marks
the IndexError of move_to_next_intersection. -/
def drive_loop (c : VehicleController) : Option VehicleController :=
  if h : c.vehicle.progress_on_road ≥ 1 then
    match hm : c.move_to_next_intersection with
    | none => none
    | some c2 =>
      if c2.vehicle.state = .arrived then some c2
      else drive_loop c2
  else some c
termination_by c.vehicle.path.length - c.vehicle.current_path_index
decreasing_by
  rcases move_to_next_intersection_index hm with ⟨hp, hi, hlt⟩
  rw [hp, hi]
  omega

/-- vehicle.py lines 174-230, VehicleController.update: do nothing unless
driving with a current road; look up the next path node (the none result
marks the IndexError Python raises when the index is outside the path),
commit the doubly clamped progress, then run the carry-over loop. -/
def update (c : VehicleController) (delta_time : ℚ) :
    Option VehicleController :=
  if c.vehicle.state ≠ .driving then some c
  else
    match c.vehicle.current_road with
    | none => some c
    | some road =>
      match c.vehicle.path[c.vehicle.current_path_index + 1]? with
      | none => none
      | some next_intersection =>
        drive_loop { c with vehicle := { c.vehicle with
          progress_on_road := c.committed_progress road next_intersection delta_time } }

end VehicleController

/-- fleet.py, class VehicleSpawner: spawn point, network, rate, speed range,
time accumulated since the last spawn and the drawn length of the next
inter-arrival interval. -/
structure VehicleSpawner where
  spawn_intersection : Intersection
  network : RoadNetwork
  spawn_rate : ℚ := 1 / 4
  speed_min : ℚ := 30
  speed_max : ℚ := 80
  time_since_last_spawn : ℚ := 0
  next_spawn_interval : ℚ
  vehicle_id_counter : Nat := 0
  deriving DecidableEq, Repr

namespace VehicleSpawner

/-- fleet.py lines 73-103, VehicleSpawner.update. The two random draws the
body makes (random.expovariate for the interval that replaces
next_spawn_interval, random.uniform for the speed of the new vehicle) are
passed in as draw_interval and draw_speed. The accumulated time grows by
delta_time; a single if (not a loop) then compares it with the next
interval, and on firing subtracts the interval (rather than resetting to
zero), installs the freshly drawn interval, and returns one new idle
vehicle with placeholder id -1 at the spawn intersection; otherwise no
vehicle is returned. -/
def update (s : VehicleSpawner) (delta_time draw_interval draw_speed : ℚ) :
    VehicleSpawner × Option Vehicle :=
  let t := s.time_since_last_spawn + delta_time
  if t ≥ s.next_spawn_interval then
    ({ s with time_since_last_spawn := t - s.next_spawn_interval,
              next_spawn_interval := draw_interval },
     some { id := -1, current_intersection := s.spawn_intersection,
            speed := draw_speed })
  else
    ({ s with time_since_last_spawn := t }, none)

end VehicleSpawner

/-- The uncaught Python exceptions relevant to the modelled code paths. -/
inductive PyError where
  | typeError
  deriving DecidableEq, Repr

/-- The number of parameters besides self of VehicleController.__init__ as
defined in vehicle.py lines 119-129: vehicle and network, with no defaults. -/
def vehicleControllerInitParams : Nat := 2

/-- The number of positional arguments fleet.py line 207 passes to the
VehicleController constructor inside VehicleFleet.add_vehicle: the vehicle,
the network and the monitor. -/
def addVehicleControllerArgs : Nat := 3

/-- Python call semantics for a constructor whose parameters have no
defaults: a call with any other number of positional arguments raises
TypeError before the body runs. -/
def call_constructor (num_params num_args : Nat) (result : VehicleController) :
    Except PyError VehicleController :=
  if num_args = num_params then .ok result else .error .typeError

/-- fleet.py, class VehicleFleet: the network, the parallel vehicle and
controller lists, the spawner list is omitted here (the claims about the
fleet concern add_vehicle), the global id counter, and whether a monitor
was attached (the monitor only matters as the third constructor argument
of line 207; its value, monitor object or None, is irrelevant to that call
arity). -/
structure VehicleFleet where
  network : RoadNetwork
  vehicles : List Vehicle := []
  controllers : List VehicleController := []
  vehicle_id_counter : Nat := 0
  deriving DecidableEq, Repr

namespace VehicleFleet

/-- fleet.py lines 217-225, VehicleFleet._get_random_destination: the
eligible intersections, in network order, excluding the given id and
keeping only destination-flagged ones; random.choice over them is modelled
by the injected pick function, which returns none exactly when the list is
empty (as the source does). -/
def get_random_destination (f : VehicleFleet)
    (pick : List Intersection → Option Intersection)
    (exclude_intersection : Intersection) : Option Intersection :=
  let available := f.network.get_all_intersections.filter
    (fun i => i.id ≠ exclude_intersection.id ∧ i.is_destination)
  pick available

/-- fleet.py lines 192-215, VehicleFleet.add_vehicle: assign the next global
id and bump the counter, append the vehicle, then construct the controller
by calling VehicleController with three positional arguments (vehicle,
network, monitor — fleet.py line 207) although VehicleController.__init__
of vehicle.py accepts two; the call raises TypeError, modelled as the error
result, and the rest of the body (appending the controller and attempting
destination assignment through the injected pick) never runs. -/
def add_vehicle (f : VehicleFleet)
    (pick : List Intersection → Option Intersection) (vehicle : Vehicle) :
    Except PyError (VehicleFleet × VehicleController) :=
  let v : Vehicle := { vehicle with id := (f.vehicle_id_counter : Int) }
  let f1 : VehicleFleet := { f with
    vehicle_id_counter := f.vehicle_id_counter + 1,
    vehicles := f.vehicles ++ [v] }
  match call_constructor vehicleControllerInitParams addVehicleControllerArgs
      { vehicle := v, network := f1.network } with
  | .error e => .error e
  | .ok controller =>
    let f2 : VehicleFleet := { f1 with controllers := f1.controllers ++ [controller] }
    match f2.get_random_destination pick v.current_intersection with
    | some destination =>
      let (controller2, _) := controller.set_destination destination
      .ok (f2, controller2)
    | none => .ok (f2, controller)

end VehicleFleet

/-- traffic_monitor.py, dataclass DirectionKey. -/
structure DirectionKey where
  from_id : Nat
  to_id : Option Nat
  deriving DecidableEq, Repr

/-- traffic_monitor.py, class TrafficMonitor. The nested defaultdicts
mapping intersection id and then DirectionKey to a deque of timestamps are
flattened to one insertion-ordered association list keyed by the pair. -/
structure TrafficMonitor where
  window_seconds : ℚ
  time : ℚ := 0
  events : List ((Nat × DirectionKey) × List ℚ) := []
  deriving DecidableEq, Repr

namespace TrafficMonitor

/-- traffic_monitor.py lines 30-34, TrafficMonitor.__init__: the window is
clamped below by one second and the clock starts at zero. -/
def init (window_seconds : ℚ) : TrafficMonitor :=
  { window_seconds := max 1 window_seconds }

/-- traffic_monitor.py lines 52-55, TrafficMonitor.record_pass: append the
current monitor time to the queue of (intersection, from, to); the
defaultdict creates an empty queue on first touch, modelled by appending a
fresh key to the association list. -/
def record_pass (m : TrafficMonitor) (intersection_id from_id : Nat)
    (to_id : Option Nat) : TrafficMonitor :=
  let key := (intersection_id, DirectionKey.mk from_id to_id)
  if (m.events.find? (fun e => e.1 = key)).isSome then
    let updated := m.events.map
      (fun e => if e.1 = key then (e.1, e.2 ++ [m.time]) else e)
    { m with events := updated }
  else
    { m with events := m.events ++ [(key, [m.time])] }

/-- traffic_monitor.py lines 40-50, TrafficMonitor.update: return unchanged
for delta_time ≤ 0; otherwise advance the clock and pop every queue from
the front while its head is strictly below the cutoff clock minus window. -/
def update (m : TrafficMonitor) (delta_time : ℚ) : TrafficMonitor :=
  if delta_time ≤ 0 then m
  else
    let t := m.time + delta_time
    let cutoff := t - m.window_seconds
    { m with time := t,
             events := m.events.map (fun e => (e.1, e.2.dropWhile (· < cutoff))) }

/-- The count the rate queries of traffic_monitor.py lines 57-65 report for
one (intersection, from, to) key: the length of its queue, zero when the
key was never recorded. -/
def rate_for (m : TrafficMonitor) (intersection_id from_id : Nat)
    (to_id : Option Nat) : Nat :=
  match m.events.find?
      (fun e => e.1 = (intersection_id, DirectionKey.mk from_id to_id)) with
  | some e => e.2.length
  | none => 0

end TrafficMonitor

/-! Supporting lemmas. -/

namespace TrafficMonitor

/-- The queue the monitor holds for one (intersection, from, to) key, empty
when the key was never recorded. -/
def queue_for (m : TrafficMonitor) (intersection_id from_id : Nat)
    (to_id : Option Nat) : List ℚ :=
  match m.events.find?
      (fun e => e.1 = (intersection_id, DirectionKey.mk from_id to_id)) with
  | some e => e.2
  | none => []

/-- The rate reported for a key is the length of its queue. -/
theorem rate_for_eq_queue_length (m : TrafficMonitor)
    (intersection_id from_id : Nat) (to_id : Option Nat) :
    m.rate_for intersection_id from_id to_id =
      (m.queue_for intersection_id from_id to_id).length := by
  unfold rate_for queue_for
  cases m.events.find?
      (fun e => e.1 = (intersection_id, DirectionKey.mk from_id to_id)) <;> rfl

/-- Searching a key after the value of every entry was rewritten finds the
rewritten entry of the original search. -/
theorem find?_map_val (l : List ((Nat × DirectionKey) × List ℚ))
    (g : List ℚ → List ℚ) (k : Nat × DirectionKey) :
    (l.map (fun e => (e.1, g e.2))).find? (fun e => e.1 = k) =
      (l.find? (fun e => e.1 = k)).map (fun e => (e.1, g e.2)) := by
  induction l with
  | nil => rfl
  | cons a t ih =>
    by_cases ha : a.1 = k
    · rw [List.map_cons, List.find?_cons_of_pos _ (by simpa using ha),
        List.find?_cons_of_pos _ (by simpa using ha)]
      rfl
    · rw [List.map_cons, List.find?_cons_of_neg _ (by simpa using ha),
        List.find?_cons_of_neg _ (by simpa using ha), ih]

/-- Searching a key after only the entries of that key had a value appended
finds the appended entry of the original search. -/
theorem find?_map_append_at_key (l : List ((Nat × DirectionKey) × List ℚ))
    (k : Nat × DirectionKey) (t0 : ℚ) :
    (l.map (fun e => if e.1 = k then (e.1, e.2 ++ [t0]) else e)).find?
        (fun e => e.1 = k) =
      (l.find? (fun e => e.1 = k)).map (fun e => (e.1, e.2 ++ [t0])) := by
  induction l with
  | nil => rfl
  | cons a rest ih =>
    by_cases ha : a.1 = k
    · rw [List.map_cons, if_pos ha,
        List.find?_cons_of_pos _ (by simpa using ha),
        List.find?_cons_of_pos _ (by simpa using ha)]
      rfl
    · rw [List.map_cons, if_neg ha,
        List.find?_cons_of_neg _ (by simpa using ha),
        List.find?_cons_of_neg _ (by simpa using ha), ih]

/-- On a non-decreasing list, dropping the strictly-below-cutoff prefix is
the same as keeping exactly the at-least-cutoff entries. -/
theorem sorted_dropWhile_lt (cutoff : ℚ) :
    ∀ l : List ℚ, l.Sorted (· ≤ ·) →
      l.dropWhile (fun t => t < cutoff) = l.filter (fun t => cutoff ≤ t) := by
  intro l hl
  induction l with
  | nil => rfl
  | cons a t ih =>
    rcases List.sorted_cons.mp hl with ⟨hall, htail⟩
    by_cases ha : a < cutoff
    · rw [List.dropWhile_cons_of_pos (by simpa using ha),
        List.filter_cons_of_neg (by simpa using not_le.mpr ha)]
      exact ih htail
    · rw [List.dropWhile_cons_of_neg (by simpa using ha),
        List.filter_cons_of_pos (by simpa using not_lt.mp ha),
        List.filter_eq_self.mpr]
      intro x hx
      simpa using le_trans (not_lt.mp ha) (hall x hx)

/-- record_pass appends the current monitor time to the queue of its key
and leaves the clock alone. -/
theorem queue_for_record_pass (m : TrafficMonitor)
    (intersection_id from_id : Nat) (to_id : Option Nat) :
    (m.record_pass intersection_id from_id to_id).queue_for intersection_id
        from_id to_id =
      m.queue_for intersection_id from_id to_id ++ [m.time] ∧
    (m.record_pass intersection_id from_id to_id).time = m.time := by
  rcases hf : m.events.find?
      (fun e => e.1 = (intersection_id, DirectionKey.mk from_id to_id)) with _ | e
  · have hq : m.queue_for intersection_id from_id to_id = [] := by
      unfold queue_for
      rw [hf]
    have hr : m.record_pass intersection_id from_id to_id =
        { m with events := m.events ++
            [((intersection_id, DirectionKey.mk from_id to_id), [m.time])] } := by
      simp only [record_pass, hf]
      rfl
    rw [hq, hr]
    refine ⟨?_, rfl⟩
    unfold queue_for
    simp only [List.find?_append, hf, Option.none_or]
    rw [List.find?_cons_of_pos _ (by simp)]
    rfl
  · have hq : m.queue_for intersection_id from_id to_id = e.2 := by
      unfold queue_for
      rw [hf]
    have hr : m.record_pass intersection_id from_id to_id =
        { m with events := m.events.map (fun x =>
            if x.1 = (intersection_id, DirectionKey.mk from_id to_id) then
              (x.1, x.2 ++ [m.time])
            else x) } := by
      simp only [record_pass, hf]
      rfl
    rw [hq, hr]
    refine ⟨?_, rfl⟩
    unfold queue_for
    simp only [find?_map_append_at_key, hf]
    rfl

/-- For positive dt, update advances the clock by dt and pops the head of
every queue while it is strictly below the new clock minus the window. -/
theorem queue_for_update (m : TrafficMonitor) (delta_time : ℚ)
    (intersection_id from_id : Nat) (to_id : Option Nat)
    (hdt : 0 < delta_time) :
    (m.update delta_time).time = m.time + delta_time ∧
    (m.update delta_time).queue_for intersection_id from_id to_id =
      (m.queue_for intersection_id from_id to_id).dropWhile
        (fun t => t < m.time + delta_time - m.window_seconds) := by
  unfold update queue_for
  rw [if_neg (not_le.mpr hdt)]
  refine ⟨rfl, ?_⟩
  simp only
  rw [find?_map_val]
  rcases hf : m.events.find?
      (fun e => e.1 = (intersection_id, DirectionKey.mk from_id to_id)) with _ | e
  · rw [hf]
    rfl
  · rw [hf]
    rfl

end TrafficMonitor

namespace VehicleController

/-- A vehicle whose progress is below one is left untouched by the
carry-over loop. -/
theorem drive_loop_of_lt_one {c : VehicleController}
    (h : c.vehicle.progress_on_road < 1) : c.drive_loop = some c := by
  rw [drive_loop]
  rw [dif_neg (by exact not_le.mpr h)]

/-- One iteration of the carry-over loop: with progress at least one, the
loop moves once and then either stops on arrival or continues from the
moved state. -/
theorem drive_loop_step {c c2 : VehicleController}
    (h1 : 1 ≤ c.vehicle.progress_on_road)
    (hm : c.move_to_next_intersection = some c2) :
    c.drive_loop =
      if c2.vehicle.state = .arrived then some c2 else c2.drive_loop := by
  rw [drive_loop]
  rw [dif_pos h1]
  split
  · simp_all
  · rename_i c3 hm3
    rw [hm] at hm3
    cases hm3
    rfl

/-- The vehicle holding at a node strictly before the final one: the move
advances the index, installs the path node there, carries progress minus
one, and binds the road towards the following node. -/
theorem move_continues (c : VehicleController) (cur nxt : Intersection)
    (h2 : c.vehicle.current_path_index + 1 < c.vehicle.path.length - 1)
    (hget : c.vehicle.path[c.vehicle.current_path_index + 1]? = some cur)
    (hget2 : c.vehicle.path[c.vehicle.current_path_index + 2]? = some nxt) :
    c.move_to_next_intersection = some { c with vehicle := { c.vehicle with
      current_path_index := c.vehicle.current_path_index + 1,
      current_intersection := cur,
      progress_on_road := c.vehicle.progress_on_road - 1,
      current_road := c.network.get_road_between cur.id nxt.id } } := by
  simp only [move_to_next_intersection, hget]
  rw [if_neg (by omega)]
  have hi : c.vehicle.current_path_index + 1 + 1 =
      c.vehicle.current_path_index + 2 := rfl
  rw [hi, hget2]

/-- The move that reaches the final path node: the vehicle arrives there
with progress zero and no current road. -/
theorem move_arrives (c : VehicleController) (cur : Intersection)
    (hge : c.vehicle.current_path_index + 1 ≥ c.vehicle.path.length - 1)
    (hget : c.vehicle.path[c.vehicle.current_path_index + 1]? = some cur) :
    c.move_to_next_intersection = some { c with vehicle := { c.vehicle with
      current_path_index := c.vehicle.current_path_index + 1,
      current_intersection := cur,
      progress_on_road := 0,
      state := .arrived,
      current_road := none } } := by
  simp only [move_to_next_intersection, hget]
  rw [if_pos hge]

/-- The condition under which the car-following scan of
_check_vehicle_ahead counts another vehicle: distinct id, same road,
strictly greater progress. -/
def leader_on (self_id : Int) (self_road_id : Nat) (self_progress : ℚ)
    (other : Vehicle) : Prop :=
  other.id ≠ self_id ∧
  (∃ oroad, other.current_road = some oroad ∧ oroad.id = self_road_id) ∧
  self_progress < other.progress_on_road

/-- The scan never returns anything above its running minimum. -/
theorem check_ahead_aux_acc_le (self_id : Int) (self_road_id : Nat)
    (self_progress : ℚ) :
    ∀ (l : List Vehicle) (a : ℚ),
      ∃ m, check_ahead_aux self_id self_road_id self_progress l (some a) =
        some m ∧ m ≤ a := by
  intro l
  induction l with
  | nil => exact fun a => ⟨a, rfl, le_refl a⟩
  | cons other rest ih =>
    intro a
    unfold check_ahead_aux
    by_cases hid : other.id = self_id
    · rw [if_pos hid]
      exact ih a
    · rw [if_neg hid]
      rcases hor : other.current_road with _ | oroad
      · exact ih a
      · dsimp only
        by_cases hc : oroad.id = self_road_id ∧
            other.progress_on_road > self_progress
        · rw [if_pos hc]
          by_cases hlt : other.progress_on_road < a
          · rw [if_pos hlt]
            rcases ih other.progress_on_road with ⟨m, hm, hle⟩
            exact ⟨m, hm, le_trans hle (le_of_lt hlt)⟩
          · rw [if_neg hlt]
            exact ih a
        · rw [if_neg hc]
          exact ih a

/-- The scan result is bounded by the progress of every counted vehicle in
the list, whatever the accumulator. -/
theorem check_ahead_aux_le_of_mem (self_id : Int) (self_road_id : Nat)
    (self_progress : ℚ) :
    ∀ (l : List Vehicle) (acc : Option ℚ) (v : Vehicle), v ∈ l →
      leader_on self_id self_road_id self_progress v →
      ∃ m, check_ahead_aux self_id self_road_id self_progress l acc =
        some m ∧ m ≤ v.progress_on_road := by
  intro l
  induction l with
  | nil => exact fun acc v hv => absurd hv (List.not_mem_nil v)
  | cons other rest ih =>
    intro acc v hv hlead
    rcases List.mem_cons.mp hv with hv | hv
    · subst hv
      rcases hlead with ⟨hid, ⟨oroad, hor, hrid⟩, hprog⟩
      unfold check_ahead_aux
      rw [if_neg hid, hor]
      dsimp only
      rw [if_pos ⟨hrid, hprog⟩]
      rcases acc with _ | m0
      · exact check_ahead_aux_acc_le self_id self_road_id self_progress rest _
      · dsimp only
        by_cases hlt : v.progress_on_road < m0
        · rw [if_pos hlt]
          exact check_ahead_aux_acc_le self_id self_road_id self_progress rest _
        · rw [if_neg hlt]
          rcases check_ahead_aux_acc_le self_id self_road_id self_progress
            rest m0 with ⟨m, hm, hle⟩
          exact ⟨m, hm, le_trans hle (not_lt.mp hlt)⟩
    · unfold check_ahead_aux
      by_cases hid : other.id = self_id
      · rw [if_pos hid]
        exact ih acc v hv hlead
      · rw [if_neg hid]
        rcases hor : other.current_road with _ | oroad
        · exact ih acc v hv hlead
        · dsimp only
          by_cases hc : oroad.id = self_road_id ∧
              other.progress_on_road > self_progress
          · rw [if_pos hc]
            rcases acc with _ | m0
            · exact ih _ v hv hlead
            · dsimp only
              by_cases hlt : other.progress_on_road < m0
              · rw [if_pos hlt]
                exact ih _ v hv hlead
              · rw [if_neg hlt]
                exact ih _ v hv hlead
          · rw [if_neg hc]
            exact ih acc v hv hlead

/-- For a driving vehicle with a current road and a next path node, update
commits the doubly clamped progress and runs the carry-over loop on it. -/
theorem update_eq_of_driving (c : VehicleController) (road : Road)
    (next_intersection : Intersection) (delta_time : ℚ)
    (hstate : c.vehicle.state = .driving)
    (hroad : c.vehicle.current_road = some road)
    (hnext : c.vehicle.path[c.vehicle.current_path_index + 1]? =
      some next_intersection) :
    c.update delta_time = VehicleController.drive_loop
      { c with vehicle := { c.vehicle with
          progress_on_road := c.committed_progress road next_intersection delta_time } } := by
  unfold update
  rw [if_neg (by rw [hstate]; simp)]
  rw [hroad]
  dsimp only
  rw [hnext]

/-- The committed progress never exceeds the tentative progress: both
clamps only reduce. -/
theorem committed_progress_le_tentative (c : VehicleController) (road : Road)
    (next_intersection : Intersection) (delta_time : ℚ) :
    c.committed_progress road next_intersection delta_time ≤
      c.vehicle.progress_on_road +
        (c.vehicle.speed * 1000 / 3600 * delta_time) / road.length := by
  unfold committed_progress
  rcases c.check_vehicle_ahead with _ | ahead
  · dsimp only
    split
    · exact min_le_left _ _
    · exact le_refl _
  · dsimp only
    split
    · exact le_trans (min_le_left _ _) (min_le_left _ _)
    · exact min_le_left _ _

end VehicleController

namespace VehicleController

/-- The carry-over loop across n full road lengths that stops short of the
final path node: the index advances by n, the intersection follows the
path, and the residual progress is the old progress minus n. The natural
number n is the integer part of the committed progress. -/
theorem drive_loop_spans (n : Nat) :
    ∀ c : VehicleController, c.vehicle.state = .driving →
      c.vehicle.path[c.vehicle.current_path_index]? =
        some c.vehicle.current_intersection →
      (⌊c.vehicle.progress_on_road⌋).toNat = n →
      c.vehicle.current_path_index + n < c.vehicle.path.length - 1 →
      ∃ c', c.drive_loop = some c' ∧
        c'.vehicle.state = .driving ∧
        c'.vehicle.path = c.vehicle.path ∧
        c'.vehicle.current_path_index = c.vehicle.current_path_index + n ∧
        c'.vehicle.progress_on_road = c.vehicle.progress_on_road - n ∧
        c.vehicle.path[c.vehicle.current_path_index + n]? =
          some c'.vehicle.current_intersection := by
  induction n with
  | zero =>
    intro c hst hcur hfl _
    have hp1 : c.vehicle.progress_on_road < 1 := by
      by_contra hge
      push_neg at hge
      have h1f : (1 : ℤ) ≤ ⌊c.vehicle.progress_on_road⌋ := by
        rw [Int.le_floor]
        exact_mod_cast hge
      omega
    exact ⟨c, drive_loop_of_lt_one hp1, hst, rfl, by simp, by simp,
      by simpa using hcur⟩
  | succ k ih =>
    intro c hst hcur hfl hlt
    have hfloor : ⌊c.vehicle.progress_on_road⌋ = (k : ℤ) + 1 := by omega
    have hp1 : (1 : ℚ) ≤ c.vehicle.progress_on_road := by
      have h1f : (1 : ℤ) ≤ ⌊c.vehicle.progress_on_road⌋ := by omega
      exact_mod_cast Int.le_floor.mp h1f
    have hlen1 : c.vehicle.current_path_index + 1 < c.vehicle.path.length := by
      omega
    have hlen2 : c.vehicle.current_path_index + 2 < c.vehicle.path.length := by
      omega
    obtain ⟨cur, hget⟩ : ∃ x,
        c.vehicle.path[c.vehicle.current_path_index + 1]? = some x :=
      ⟨_, List.getElem?_eq_getElem hlen1⟩
    obtain ⟨nxt, hget2⟩ : ∃ x,
        c.vehicle.path[c.vehicle.current_path_index + 2]? = some x :=
      ⟨_, List.getElem?_eq_getElem hlen2⟩
    have hmove := move_continues c cur nxt (by omega) hget hget2
    have hstep := drive_loop_step hp1 hmove
    have hfl2 : ⌊c.vehicle.progress_on_road - 1⌋ = (k : ℤ) := by
      have := Int.floor_sub_int c.vehicle.progress_on_road 1
      push_cast at this
      omega
    have hih := ih { c with vehicle := { c.vehicle with
        current_path_index := c.vehicle.current_path_index + 1,
        current_intersection := cur,
        progress_on_road := c.vehicle.progress_on_road - 1,
        current_road := c.network.get_road_between cur.id nxt.id } }
      hst hget (by dsimp only; omega) (by dsimp only; omega)
    dsimp only at hih
    rcases hih with ⟨c', hdl, hst', hpath', hidx', hprog', hint'⟩
    rw [hstep, if_neg (by dsimp only; rw [hst]; simp)]
    refine ⟨c', hdl, hst', hpath', by omega, ?_, ?_⟩
    · rw [hprog']
      push_cast
      ring
    · have hidxeq : c.vehicle.current_path_index + 1 + k =
          c.vehicle.current_path_index + (k + 1) := by omega
      rw [hidxeq] at hint'
      exact hint'

/-- The carry-over loop that reaches the final path node: the vehicle ends
the tick arrived at the last path node with progress zero and no current
road. The measure m is the remaining number of path edges. -/
theorem drive_loop_arrives (m : Nat) :
    ∀ c : VehicleController, c.vehicle.state = .driving →
      c.vehicle.current_path_index < c.vehicle.path.length - 1 →
      c.vehicle.path.length - 1 - c.vehicle.current_path_index = m →
      c.vehicle.path.length - 1 ≤ c.vehicle.current_path_index +
        (⌊c.vehicle.progress_on_road⌋).toNat →
      ∃ c', c.drive_loop = some c' ∧
        c'.vehicle.state = .arrived ∧
        c'.vehicle.progress_on_road = 0 ∧
        c'.vehicle.current_road = none ∧
        c'.vehicle.path = c.vehicle.path ∧
        c'.vehicle.current_path_index = c.vehicle.path.length - 1 ∧
        c.vehicle.path[c.vehicle.path.length - 1]? =
          some c'.vehicle.current_intersection := by
  induction m with
  | zero =>
    intro c _ hlt hm _
    omega
  | succ k ih =>
    intro c hst hlt hm hge
    have hp1 : (1 : ℚ) ≤ c.vehicle.progress_on_road := by
      have h1f : (1 : ℤ) ≤ ⌊c.vehicle.progress_on_road⌋ := by omega
      exact_mod_cast Int.le_floor.mp h1f
    have hlen1 : c.vehicle.current_path_index + 1 < c.vehicle.path.length := by
      omega
    obtain ⟨cur, hget⟩ : ∃ x,
        c.vehicle.path[c.vehicle.current_path_index + 1]? = some x :=
      ⟨_, List.getElem?_eq_getElem hlen1⟩
    by_cases harr : c.vehicle.path.length - 1 ≤ c.vehicle.current_path_index + 1
    · have hmove := move_arrives c cur harr hget
      have hstep := drive_loop_step hp1 hmove
      have hidxeq : c.vehicle.current_path_index + 1 =
          c.vehicle.path.length - 1 := by omega
      rw [hidxeq] at hget
      refine ⟨{ c with vehicle := { c.vehicle with
          current_path_index := c.vehicle.current_path_index + 1,
          current_intersection := cur,
          progress_on_road := 0,
          state := .arrived,
          current_road := none } }, ?_, rfl, rfl, rfl, rfl, ?_, ?_⟩
      · rw [hstep, if_pos rfl]
      · show c.vehicle.current_path_index + 1 = c.vehicle.path.length - 1
        omega
      · show c.vehicle.path[c.vehicle.path.length - 1]? = some cur
        exact hget
    · push_neg at harr
      have hlen2 : c.vehicle.current_path_index + 2 < c.vehicle.path.length := by
        omega
      obtain ⟨nxt, hget2⟩ : ∃ x,
          c.vehicle.path[c.vehicle.current_path_index + 2]? = some x :=
        ⟨_, List.getElem?_eq_getElem hlen2⟩
      have hmove := move_continues c cur nxt (by omega) hget hget2
      have hstep := drive_loop_step hp1 hmove
      have hfl2 : ⌊c.vehicle.progress_on_road - 1⌋ =
          ⌊c.vehicle.progress_on_road⌋ - 1 := by
        have := Int.floor_sub_int c.vehicle.progress_on_road 1
        push_cast at this
        omega
      have hih := ih { c with vehicle := { c.vehicle with
          current_path_index := c.vehicle.current_path_index + 1,
          current_intersection := cur,
          progress_on_road := c.vehicle.progress_on_road - 1,
          current_road := c.network.get_road_between cur.id nxt.id } }
        hst (by dsimp only; omega) (by dsimp only; omega)
        (by dsimp only; omega)
      dsimp only at hih
      rcases hih with ⟨c', hdl, hst', hprog', hroad', hpath', hidx', hint'⟩
      rw [hstep, if_neg (by dsimp only; rw [hst]; simp)]
      exact ⟨c', hdl, hst', hprog', hroad', hpath', hidx', hint'⟩

end VehicleController

/-! Concrete objects used by witnesses and counterexamples. -/

/-- A bare intersection with id 0. -/
def exI0 : Intersection := { id := 0 }

/-- A bare intersection with id 1. -/
def exI1 : Intersection := { id := 1 }

/-- A network holding only exI0 and exI1 with no roads. -/
def exNet : RoadNetwork := { intersections := [exI0, exI1], roads := [] }

/-- A controller for an idle vehicle standing at exI0 in exNet. -/
def exController : VehicleController :=
  { vehicle := { id := 0, current_intersection := exI0 }, network := exNet }

/-- A two-phase signal, both phases lasting five seconds, starting in phase
zero at elapsed zero. -/
def exSignal : TrafficLightController :=
  { phases := [⟨[], 5⟩, ⟨[], 5⟩], current_phase_index := 0, time_in_phase := 0 }

/-- A spawner at exI0 whose next inter-arrival interval is one second and
whose accumulator is zero. -/
def exSpawner : VehicleSpawner :=
  { spawn_intersection := exI0, network := exNet, next_spawn_interval := 1 }

/-- A 100-metre road from exI0 to exI1. -/
def exRoad : Road :=
  { id := 0, from_intersection := exI0, to_intersection := exI1, length := 100 }

/-- A leader vehicle one percent along exRoad. -/
def exLeader : Vehicle :=
  { id := 1, current_intersection := exI0, current_road := some exRoad,
    progress_on_road := 1 / 100 }

/-- A driving vehicle at the start of exRoad, bound for exI1, with the
leader exLeader just ahead on the same road. Its speed of 36 km/h is 10 m/s. -/
def exFollowerVehicle : Vehicle :=
  { id := 0, current_intersection := exI0, speed := 36,
    state := .driving, path := [exI0, exI1], current_path_index := 0,
    progress_on_road := 0, current_road := some exRoad }

/-- The controller of exFollowerVehicle, seeing exLeader. -/
def exFollower : VehicleController :=
  { vehicle := exFollowerVehicle, network := exNet,
    other_vehicles := [exLeader] }

/-! Claims. -/

/-- Claim C1 (code bug): the claim says every vehicle added through
VehicleFleet.add_vehicle gets the next global id, its controller is
constructed and destination assignment is attempted with the call
completing normally. The code cannot do that: fleet.py line 207 passes
three positional arguments (vehicle, network, monitor) to the
VehicleController constructor while VehicleController.__init__ of
vehicle.py lines 119-129 accepts exactly two, so every call of add_vehicle
raises TypeError at controller construction. This theorem evaluates the
embedded add_vehicle: for every fleet, pick function and vehicle it raises
TypeError. -/
theorem C1_add_vehicle_raises_type_error (f : VehicleFleet)
    (pick : List Intersection → Option Intersection) (vehicle : Vehicle) :
    f.add_vehicle pick vehicle = .error .typeError := by
  unfold VehicleFleet.add_vehicle call_constructor
  norm_num [vehicleControllerInitParams, addVehicleControllerArgs]

/-- Claim C2 (amended): when the destination id equals the current
intersection id, set_destination transitions the vehicle directly to
arrived, sets its destination and returns success, while leaving the route
unchanged (the code does not write path, so the route is not set to the
one-element sequence [current intersection]). -/
theorem C2_set_destination_at_current (c : VehicleController)
    (destination : Intersection)
    (h : destination.id = c.vehicle.current_intersection.id) :
    c.set_destination destination =
      ({ c with vehicle := { c.vehicle with
          state := .arrived, destination := some destination } }, true) ∧
    (c.set_destination destination).1.vehicle.path = c.vehicle.path := by
  unfold VehicleController.set_destination
  rw [if_pos h]
  exact ⟨rfl, rfl⟩

/-- Witness for C2 at a concrete input: the controller of an idle vehicle
standing at exI0, destination exI0. -/
theorem C2_set_destination_at_current_witness :
    exI0.id = exController.vehicle.current_intersection.id ∧
    (exController.set_destination exI0 =
      ({ exController with vehicle := { exController.vehicle with
          state := .arrived, destination := some exI0 } }, true) ∧
    (exController.set_destination exI0).1.vehicle.path =
      exController.vehicle.path) :=
  ⟨rfl, C2_set_destination_at_current exController exI0 rfl⟩

/-- Counterexample to claim C2 as stated: it asserts the route is set to
the one-element sequence holding the current intersection; at the concrete
controller exController (empty route, standing at exI0) the route after
set_destination exI0 is still empty, not [exI0]. -/
theorem C2_route_not_set_counterexample :
    (exController.set_destination exI0).1.vehicle.path ≠ [exI0] := by
  simp [VehicleController.set_destination, exController, exI0]

/-- Claim C3 (amended): VehicleSpawner.update accumulates dt and then
compares the accumulator with the next interval once (an if, not a while
loop); when it fires it subtracts the interval from the accumulator (rather
than resetting it to zero), installs the fresh draw and emits exactly one
vehicle with the drawn speed and placeholder id; otherwise it emits
nothing. A single call emits at most one vehicle no matter how large dt is;
the surplus accumulation persists, so the immediately following call can
fire again even with dt = 0 (the last two conjuncts evaluate that on the
concrete spawner exSpawner with five completed intervals). -/
theorem C3_spawner_update_fires_once (s : VehicleSpawner)
    (delta_time draw_interval draw_speed : ℚ) :
    (s.time_since_last_spawn + delta_time ≥ s.next_spawn_interval →
      s.update delta_time draw_interval draw_speed =
        ({ s with
            time_since_last_spawn :=
              s.time_since_last_spawn + delta_time - s.next_spawn_interval,
            next_spawn_interval := draw_interval },
         some { id := -1, current_intersection := s.spawn_intersection,
                speed := draw_speed })) ∧
    (s.time_since_last_spawn + delta_time < s.next_spawn_interval →
      s.update delta_time draw_interval draw_speed =
        ({ s with time_since_last_spawn :=
            s.time_since_last_spawn + delta_time }, none)) ∧
    ((exSpawner.update 5 1 37).2).isSome = true ∧
    (((exSpawner.update 5 1 37).1.update 0 1 37).2).isSome = true := by
  refine ⟨?_, ?_, ?_, ?_⟩
  · intro hge
    unfold VehicleSpawner.update
    rw [if_pos hge]
  · intro hlt
    unfold VehicleSpawner.update
    rw [if_neg (not_le.mpr hlt)]
  · norm_num [VehicleSpawner.update, exSpawner]
  · norm_num [VehicleSpawner.update, exSpawner]

/-- Counterexample to claim C3 as stated: the claimed while loop would
drain every completed interval, leaving the accumulator below the next
interval and emitting one vehicle per completed interval; on the concrete
spawner exSpawner (interval one, accumulator zero) a single update of five
seconds leaves the accumulator at four, which still reaches the next
interval of one, and the call can emit at most the one vehicle of its
Option result. -/
theorem C3_spawner_single_if_counterexample :
    (exSpawner.update 5 1 37).1.time_since_last_spawn = 4 ∧
    (exSpawner.update 5 1 37).1.next_spawn_interval = 1 ∧
    ¬ ((exSpawner.update 5 1 37).1.time_since_last_spawn <
        (exSpawner.update 5 1 37).1.next_spawn_interval) := by
  norm_num [VehicleSpawner.update, exSpawner]

/-- Claim C8: TrafficLightController.update adds dt to the elapsed time in
the current phase; when that reaches the phase duration it advances the
index modulo the phase count and resets the elapsed time to exactly zero
(discarding the overshoot), and otherwise just stores the grown elapsed
time. The closing conjuncts evaluate the concrete two-phase 5s/5s signal:
one update of five seconds moves the index from 0 to 1 with elapsed 0, and
a second update of five seconds wraps back to index 0. -/
theorem C8_signal_update (c : TrafficLightController) (delta_time : ℚ)
    (ph : TrafficLightPhase)
    (h : c.phases[c.current_phase_index]? = some ph) :
    (c.time_in_phase + delta_time ≥ ph.duration →
      c.update delta_time =
        { c with
            current_phase_index := (c.current_phase_index + 1) % c.phases.length,
            time_in_phase := 0 }) ∧
    (c.time_in_phase + delta_time < ph.duration →
      c.update delta_time =
        { c with time_in_phase := c.time_in_phase + delta_time }) ∧
    (exSignal.update 5).current_phase_index = 1 ∧
    (exSignal.update 5).time_in_phase = 0 ∧
    ((exSignal.update 5).update 5).current_phase_index = 0 ∧
    ((exSignal.update 5).update 5).time_in_phase = 0 := by
  refine ⟨?_, ?_, ?_, ?_, ?_, ?_⟩
  · intro hge
    unfold TrafficLightController.update
    rw [h]
    simp only [ge_iff_le, if_pos hge]
  · intro hlt
    unfold TrafficLightController.update
    rw [h]
    simp only [ge_iff_le, if_neg (not_le.mpr hlt)]
  all_goals norm_num [TrafficLightController.update, exSignal]

/-- Claim C9 (amended): record_pass appends the monitor current time to the
queue keyed by (from, to or none) under the intersection without touching
the clock; update with positive dt advances the clock by dt and then
removes from every keyed queue exactly the entries older than the new clock
minus the window (the queues of a monitor driven through record_pass are
non-decreasing, the hypothesis here), so those entries are excluded from
subsequent rate queries; for dt ≤ 0 the code returns without advancing the
clock (the guard of traffic_monitor.py line 42), which the counterexample
records. The final conjunct evaluates the concrete scenario: record at time
0 with a 60-second window, update by 61 seconds, rate query 0. -/
theorem C9_monitor_windowing (m : TrafficMonitor)
    (intersection_id from_id : Nat) (to_id : Option Nat) (delta_time : ℚ)
    (hs : ∀ e ∈ m.events, e.2.Sorted (· ≤ ·))
    (hdt : 0 < delta_time) :
    ((m.record_pass intersection_id from_id to_id).queue_for intersection_id
        from_id to_id =
      m.queue_for intersection_id from_id to_id ++ [m.time]) ∧
    (m.record_pass intersection_id from_id to_id).time = m.time ∧
    (m.update delta_time).time = m.time + delta_time ∧
    ((m.update delta_time).queue_for intersection_id from_id to_id =
      (m.queue_for intersection_id from_id to_id).filter
        (fun t => m.time + delta_time - m.window_seconds ≤ t)) ∧
    ((m.update delta_time).rate_for intersection_id from_id to_id =
      ((m.queue_for intersection_id from_id to_id).filter
        (fun t => m.time + delta_time - m.window_seconds ≤ t)).length) ∧
    (((TrafficMonitor.init 60).record_pass 1 2 (some 3)).update 61).rate_for
        1 2 (some 3) = 0 := by
  have hrec := TrafficMonitor.queue_for_record_pass m intersection_id from_id to_id
  have hupd := TrafficMonitor.queue_for_update m delta_time intersection_id
    from_id to_id hdt
  have hsortedq : (m.queue_for intersection_id from_id to_id).Sorted (· ≤ ·) := by
    unfold TrafficMonitor.queue_for
    rcases hf : m.events.find?
        (fun e => e.1 = (intersection_id, DirectionKey.mk from_id to_id)) with _ | e
    · rw [hf]
      exact List.sorted_nil
    · rw [hf]
      exact hs e (List.mem_of_find?_eq_some hf)
  have hfilter := TrafficMonitor.sorted_dropWhile_lt
    (m.time + delta_time - m.window_seconds)
    (m.queue_for intersection_id from_id to_id) hsortedq
  refine ⟨hrec.1, hrec.2, hupd.1, ?_, ?_, ?_⟩
  · rw [hupd.2, hfilter]
  · rw [TrafficMonitor.rate_for_eq_queue_length, hupd.2, hfilter]
  · have h01 : decide ((0:ℚ) < 61 - max 1 60) = true :=
      decide_eq_true (by norm_num)
    simp only [TrafficMonitor.init, TrafficMonitor.record_pass,
      TrafficMonitor.update, TrafficMonitor.rate_for, List.find?_nil,
      Option.isSome_none, Bool.false_eq_true, if_false, List.nil_append,
      List.map_cons, List.map_nil]
    norm_num [List.find?, List.dropWhile, h01]

/-- Witness for C9 at a concrete input: the monitor with a 60-second window
after one record at time zero, updated by 61 seconds. -/
theorem C9_monitor_windowing_witness :
    (∀ e ∈ ((TrafficMonitor.init 60).record_pass 1 2 (some 3)).events,
      e.2.Sorted (· ≤ ·)) ∧ (0:ℚ) < 61 ∧
    (((TrafficMonitor.init 60).record_pass 1 2 (some 3)).update 61).time =
      ((TrafficMonitor.init 60).record_pass 1 2 (some 3)).time + 61 := by
  have hs : ∀ e ∈ ((TrafficMonitor.init 60).record_pass 1 2 (some 3)).events,
      e.2.Sorted (· ≤ ·) := by
    simp [TrafficMonitor.init, TrafficMonitor.record_pass]
  exact ⟨hs, by norm_num,
    (C9_monitor_windowing _ 1 2 (some 3) 61 hs (by norm_num)).2.2.1⟩

/-- Counterexample to claim C9 as stated: it asserts update advances the
clock by dt for every dt, but the code returns unchanged for dt ≤ 0; on the
fresh 60-second monitor an update of -1 leaves the clock at 0 instead of
moving it to -1. -/
theorem C9_nonpositive_dt_counterexample :
    ((TrafficMonitor.init 60).update (-1)).time = 0 ∧
    ((TrafficMonitor.init 60).update (-1)).time ≠
      (TrafficMonitor.init 60).time + (-1) := by
  constructor
  · norm_num [TrafficMonitor.update, TrafficMonitor.init]
  · norm_num [TrafficMonitor.update, TrafficMonitor.init]

/-- Witness for C8 at a concrete input: the 5s/5s signal exSignal with
dt = 5, whose current phase is the first. -/
theorem C8_signal_update_witness :
    exSignal.phases[exSignal.current_phase_index]? =
        some { allowed_directions := [], duration := 5 } ∧
    ((0:ℚ) + 5 ≥ 5 ∧
      exSignal.update 5 =
        { exSignal with
            current_phase_index := (exSignal.current_phase_index + 1) %
              exSignal.phases.length,
            time_in_phase := 0 }) := by
  have h : exSignal.phases[exSignal.current_phase_index]? =
      some { allowed_directions := [], duration := 5 } := by
    simp [exSignal]
  have hmain := (C8_signal_update exSignal 5 _ h).1
  refine ⟨h, by norm_num, ?_⟩
  have : exSignal.time_in_phase + 5 ≥ (5:ℚ) := by
    simp [exSignal]
  simpa [exSignal] using hmain this

/-- Claim C6: for a driving vehicle with another active vehicle ahead on
the same road (distinct id, same road id, strictly greater progress), the
car-following scan returns the minimum such leader progress m, the
committed progress never exceeds m minus the 3 percent safety margin, the
clamps only ever reduce the tentative progress, and update commits exactly
that clamped value before the carry-over loop. -/
theorem C6_car_following_clamp (c : VehicleController) (road : Road)
    (next_intersection : Intersection) (delta_time : ℚ) (other : Vehicle)
    (hstate : c.vehicle.state = .driving)
    (hroad : c.vehicle.current_road = some road)
    (hnext : c.vehicle.path[c.vehicle.current_path_index + 1]? =
      some next_intersection)
    (hmem : other ∈ c.other_vehicles)
    (hlead : VehicleController.leader_on c.vehicle.id road.id
      c.vehicle.progress_on_road other) :
    ∃ m, c.check_vehicle_ahead = some m ∧
      (∀ v ∈ c.other_vehicles,
        VehicleController.leader_on c.vehicle.id road.id
          c.vehicle.progress_on_road v → m ≤ v.progress_on_road) ∧
      c.committed_progress road next_intersection delta_time ≤ m - 3 / 100 ∧
      c.committed_progress road next_intersection delta_time ≤
        c.vehicle.progress_on_road +
          (c.vehicle.speed * 1000 / 3600 * delta_time) / road.length ∧
      c.update delta_time = VehicleController.drive_loop
        { c with vehicle := { c.vehicle with
            progress_on_road :=
              c.committed_progress road next_intersection delta_time } } := by
  have hall : ∀ v ∈ c.other_vehicles,
      VehicleController.leader_on c.vehicle.id road.id
        c.vehicle.progress_on_road v →
      ∃ m2, c.check_vehicle_ahead = some m2 ∧ m2 ≤ v.progress_on_road := by
    intro v hv hl
    unfold VehicleController.check_vehicle_ahead
    rw [hroad]
    dsimp only
    exact VehicleController.check_ahead_aux_le_of_mem _ _ _
      c.other_vehicles none v hv hl
  rcases hall other hmem hlead with ⟨m, hm, _⟩
  refine ⟨m, hm, ?_, ?_,
    VehicleController.committed_progress_le_tentative c road next_intersection
      delta_time,
    VehicleController.update_eq_of_driving c road next_intersection delta_time
      hstate hroad hnext⟩
  · intro v hv hl
    rcases hall v hv hl with ⟨m2, hm2, hle2⟩
    rw [hm] at hm2
    rw [Option.some.inj hm2]
    exact hle2
  · unfold VehicleController.committed_progress
    rw [hm]
    dsimp only
    split
    · exact le_trans (min_le_left _ _) (min_le_right _ _)
    · exact min_le_right _ _

/-- Witness for C6 at a concrete input: exFollower driving at progress 0
with exLeader one percent ahead on exRoad, next node exI1, dt one second. -/
theorem C6_car_following_clamp_witness :
    (exFollower.vehicle.state = .driving ∧
      exFollower.vehicle.current_road = some exRoad ∧
      exFollower.vehicle.path[exFollower.vehicle.current_path_index + 1]? =
        some exI1 ∧
      exLeader ∈ exFollower.other_vehicles ∧
      VehicleController.leader_on exFollower.vehicle.id exRoad.id
        exFollower.vehicle.progress_on_road exLeader) ∧
    (∃ m, exFollower.check_vehicle_ahead = some m ∧
      (∀ v ∈ exFollower.other_vehicles,
        VehicleController.leader_on exFollower.vehicle.id exRoad.id
          exFollower.vehicle.progress_on_road v → m ≤ v.progress_on_road) ∧
      exFollower.committed_progress exRoad exI1 1 ≤ m - 3 / 100 ∧
      exFollower.committed_progress exRoad exI1 1 ≤
        exFollower.vehicle.progress_on_road +
          (exFollower.vehicle.speed * 1000 / 3600 * 1) / exRoad.length ∧
      exFollower.update 1 = VehicleController.drive_loop
        { exFollower with vehicle := { exFollower.vehicle with
            progress_on_road := exFollower.committed_progress exRoad exI1 1 } }) := by
  have hlead : VehicleController.leader_on exFollower.vehicle.id exRoad.id
      exFollower.vehicle.progress_on_road exLeader := by
    refine ⟨by norm_num [exLeader, exFollower, exFollowerVehicle], ⟨exRoad, rfl, rfl⟩, ?_⟩
    norm_num [exLeader, exFollower, exFollowerVehicle]
  exact ⟨⟨rfl, rfl, rfl, by simp [exFollower], hlead⟩,
    C6_car_following_clamp exFollower exRoad exI1 1 exLeader rfl rfl rfl
      (by simp [exFollower]) hlead⟩

/-- A one-phase signal that allows no approach direction at all, so it is
red for every direction. -/
def exRedSignal : TrafficLightController :=
  { phases := [⟨[], 5⟩], current_phase_index := 0, time_in_phase := 0 }

/-- An intersection with id 1 guarded by exRedSignal. -/
def exI1Red : Intersection :=
  { id := 1, traffic_light_controller := some exRedSignal }

/-- A 100-metre road from exI0 to exI1Red. -/
def exRoadRed : Road :=
  { id := 0, from_intersection := exI0, to_intersection := exI1Red,
    length := 100 }

/-- A fast driving vehicle headed into the red light of exI1Red. -/
def exRedVehicle : Vehicle :=
  { id := 0, current_intersection := exI0, speed := 360,
    state := .driving, path := [exI0, exI1Red], current_path_index := 0,
    progress_on_road := 0, current_road := some exRoadRed }

/-- The controller of exRedVehicle, alone on the network. -/
def exRedController : VehicleController :=
  { vehicle := exRedVehicle,
    network := { intersections := [exI0, exI1Red], roads := [exRoadRed] } }

/-- Claim C7: a driving vehicle whose upcoming intersection holds it at a
red light (an active signal that is not green for the direction of its
current intersection) has its committed progress capped at 0.95, stays
strictly below progress one, and does not advance to the next path node or
intersection during the tick. -/
theorem C7_red_light_blocks_entry (c : VehicleController) (road : Road)
    (next_intersection : Intersection) (delta_time : ℚ)
    (hstate : c.vehicle.state = .driving)
    (hroad : c.vehicle.current_road = some road)
    (hnext : c.vehicle.path[c.vehicle.current_path_index + 1]? =
      some next_intersection)
    (hred : c.has_red_light next_intersection = true) :
    ∃ c', c.update delta_time = some c' ∧
      c'.vehicle.progress_on_road =
        c.committed_progress road next_intersection delta_time ∧
      c.committed_progress road next_intersection delta_time ≤ 95 / 100 ∧
      c'.vehicle.progress_on_road < 1 ∧
      c'.vehicle.current_intersection = c.vehicle.current_intersection ∧
      c'.vehicle.current_path_index = c.vehicle.current_path_index ∧
      c'.vehicle.state = .driving := by
  have hc95 : c.committed_progress road next_intersection delta_time ≤
      95 / 100 := by
    unfold VehicleController.committed_progress
    rw [hred]
    dsimp only
    rw [if_pos rfl]
    exact min_le_right _ _
  have hlt1 : c.committed_progress road next_intersection delta_time < 1 :=
    lt_of_le_of_lt hc95 (by norm_num)
  have hupd := VehicleController.update_eq_of_driving c road next_intersection
    delta_time hstate hroad hnext
  refine ⟨{ c with vehicle := { c.vehicle with
      progress_on_road := c.committed_progress road next_intersection
        delta_time } }, ?_, rfl, hc95, hlt1, rfl, rfl, hstate⟩
  rw [hupd]
  exact VehicleController.drive_loop_of_lt_one hlt1

/-- Witness for C7 at a concrete input: exRedController driving towards the
all-red signal of exI1Red, dt one second. -/
theorem C7_red_light_blocks_entry_witness :
    (exRedController.vehicle.state = .driving ∧
      exRedController.vehicle.current_road = some exRoadRed ∧
      exRedController.vehicle.path[exRedController.vehicle.current_path_index
        + 1]? = some exI1Red ∧
      exRedController.has_red_light exI1Red = true) ∧
    (∃ c', exRedController.update 1 = some c' ∧
      c'.vehicle.progress_on_road =
        exRedController.committed_progress exRoadRed exI1Red 1 ∧
      exRedController.committed_progress exRoadRed exI1Red 1 ≤ 95 / 100 ∧
      c'.vehicle.progress_on_road < 1 ∧
      c'.vehicle.current_intersection =
        exRedController.vehicle.current_intersection ∧
      c'.vehicle.current_path_index =
        exRedController.vehicle.current_path_index ∧
      c'.vehicle.state = .driving) :=
  ⟨⟨rfl, rfl, rfl, rfl⟩,
    C7_red_light_blocks_entry exRedController exRoadRed exI1Red 1
      rfl rfl rfl rfl⟩

/-- The minimum over a close leader: when the scan reports a leader at
progress p with current < p < current + margin and no red light binds, the
committed progress is exactly p minus the margin, strictly below the prior
progress (the min clamp has no floor at the old progress). -/
theorem VehicleController.committed_progress_of_close_leader
    (c : VehicleController) (road : Road) (next_intersection : Intersection)
    (delta_time p : ℚ)
    (hahead : c.check_vehicle_ahead = some p)
    (h1 : c.vehicle.progress_on_road < p)
    (h2 : p < c.vehicle.progress_on_road + 3 / 100)
    (hred : c.has_red_light next_intersection = false)
    (hdt : 0 ≤ delta_time) (hsp : 0 ≤ c.vehicle.speed)
    (hlen : 0 < road.length) :
    c.committed_progress road next_intersection delta_time = p - 3 / 100 ∧
    c.committed_progress road next_intersection delta_time <
      c.vehicle.progress_on_road := by
  have hdist : 0 ≤ (c.vehicle.speed * 1000 / 3600 * delta_time) / road.length := by
    apply div_nonneg _ (le_of_lt hlen)
    apply mul_nonneg _ hdt
    apply div_nonneg (mul_nonneg hsp (by norm_num)) (by norm_num)
  have hcap : p - 3 / 100 < c.vehicle.progress_on_road := by linarith
  have hmin : min (c.vehicle.progress_on_road +
      (c.vehicle.speed * 1000 / 3600 * delta_time) / road.length)
      (p - 3 / 100) = p - 3 / 100 := by
    apply min_eq_right
    linarith
  unfold VehicleController.committed_progress
  rw [hahead, hred]
  dsimp only
  rw [if_neg (by simp)]
  exact ⟨hmin, by rw [hmin]; exact hcap⟩

/-- Claim C10: the car-following cap is applied with min and no floor at
the prior progress, so update can move a vehicle backwards: whenever the
scan reports the closest leader at progress p with current < p < current +
0.03 and no red light binds, the committed progress equals p - 0.03, which
is strictly below the prior progress; at the concrete exFollower (leader at
one percent of the road, follower at zero) the committed progress is the
negative value -1/50 and update commits exactly that. -/
theorem C10_following_clamp_pulls_backwards (c : VehicleController)
    (road : Road) (next_intersection : Intersection) (delta_time p : ℚ)
    (hahead : c.check_vehicle_ahead = some p)
    (h1 : c.vehicle.progress_on_road < p)
    (h2 : p < c.vehicle.progress_on_road + 3 / 100)
    (hred : c.has_red_light next_intersection = false)
    (hdt : 0 ≤ delta_time) (hsp : 0 ≤ c.vehicle.speed)
    (hlen : 0 < road.length) :
    (c.committed_progress road next_intersection delta_time = p - 3 / 100 ∧
      c.committed_progress road next_intersection delta_time <
        c.vehicle.progress_on_road) ∧
    exFollower.committed_progress exRoad exI1 1 = -(1 / 50) ∧
    exFollower.update 1 = some { exFollower with
      vehicle := { exFollower.vehicle with
        progress_on_road := -(1 / 50) } } := by
  have hca : exFollower.check_vehicle_ahead = some (1 / 100) := by
    unfold VehicleController.check_vehicle_ahead
    norm_num [VehicleController.check_ahead_aux, exFollower, exFollowerVehicle,
      exLeader, exRoad]
  have hconc := VehicleController.committed_progress_of_close_leader
    exFollower exRoad exI1 1 (1 / 100) hca
    (by norm_num [exFollower, exFollowerVehicle])
    (by norm_num [exFollower, exFollowerVehicle]) rfl (by norm_num)
    (by norm_num [exFollower, exFollowerVehicle])
    (by norm_num [exRoad])
  have hval : exFollower.committed_progress exRoad exI1 1 = -(1 / 50) := by
    rw [hconc.1]
    norm_num
  refine ⟨VehicleController.committed_progress_of_close_leader c road
      next_intersection delta_time p hahead h1 h2 hred hdt hsp hlen,
    hval, ?_⟩
  have hupd := VehicleController.update_eq_of_driving exFollower exRoad exI1 1
    rfl rfl rfl
  rw [hupd, hval]
  exact VehicleController.drive_loop_of_lt_one (by norm_num)

/-- Witness for C10 at a concrete input: exFollower with the close leader
exLeader reported at progress 1/100. -/
theorem C10_following_clamp_pulls_backwards_witness :
    (exFollower.check_vehicle_ahead = some (1 / 100) ∧
      exFollower.vehicle.progress_on_road < 1 / 100 ∧
      (1 : ℚ) / 100 < exFollower.vehicle.progress_on_road + 3 / 100 ∧
      exFollower.has_red_light exI1 = false) ∧
    (exFollower.committed_progress exRoad exI1 1 = 1 / 100 - 3 / 100 ∧
      exFollower.committed_progress exRoad exI1 1 <
        exFollower.vehicle.progress_on_road) := by
  have hca : exFollower.check_vehicle_ahead = some (1 / 100) := by
    unfold VehicleController.check_vehicle_ahead
    norm_num [VehicleController.check_ahead_aux, exFollower, exFollowerVehicle,
      exLeader, exRoad]
  refine ⟨⟨hca, by norm_num [exFollower, exFollowerVehicle],
    by norm_num [exFollower, exFollowerVehicle], rfl⟩, ?_⟩
  exact (C10_following_clamp_pulls_backwards exFollower exRoad exI1 1 (1 / 100)
    hca (by norm_num [exFollower, exFollowerVehicle])
    (by norm_num [exFollower, exFollowerVehicle]) rfl (by norm_num)
    (by norm_num [exFollower, exFollowerVehicle]) (by norm_num [exRoad])).1

/-- A network holding exI0 and exI1 joined by the single road exRoad. -/
def exNetRoaded : RoadNetwork :=
  { intersections := [exI0, exI1], roads := [exRoad] }

/-- Claim C5: find_shortest_path returns [start] when the two ids
coincide; it returns the empty sequence when the goal is unreachable from
start; and otherwise it returns a path through the network from start to
the goal whose edge count (node count minus one) equals the true minimum
hop count, every road counted as unit weight. (The embedding is a function
of the network, whose adjacency lists are its creation-ordered road lists,
so the result is determined by the adjacency-list insertion order.) -/
theorem C5_find_shortest_path (net : RoadNetwork) (start endI : Intersection)
    (hwf : net.WF) (hs : start ∈ net.intersections) :
    (start.id = endI.id →
      PathFinder.find_shortest_path net start endI = [start]) ∧
    ((∀ n, ¬ net.Walk start.id endI.id n) →
      PathFinder.find_shortest_path net start endI = []) ∧
    (start.id ≠ endI.id → (∃ n, net.Walk start.id endI.id n) →
      IsPathTo net start.id endI.id
        (PathFinder.find_shortest_path net start endI) ∧
      ∃ d, net.Walk start.id endI.id d ∧
        (∀ k, net.Walk start.id endI.id k → d ≤ k) ∧
        (PathFinder.find_shortest_path net start endI).length = d + 1) := by
  have hsid : start.id ∈ net.intersections.map Intersection.id :=
    List.mem_map_of_mem _ hs
  have hfuel : unvisitedCount net [start.id] +
      ([(start, [start])] :
        List (Intersection × List Intersection)).length <
      net.intersections.length + 1 := by
    have := unvisitedCount_lt_length net start.id hsid
    simp only [List.length_cons, List.length_nil]
    omega
  have hmain : ∀ _ : start.id ≠ endI.id, ∃ r,
      PathFinder.bfs_loop net endI (net.intersections.length + 1)
        [(start, [start])] [start.id] = some r ∧
      ((r = [] ∧ ∀ n, ¬ net.Walk start.id endI.id n) ∨
        (IsPathTo net start.id endI.id r ∧
          ∀ n, net.Walk start.id endI.id n → r.length ≤ n + 1)) := by
    intro hse
    rcases hloop : PathFinder.bfs_loop net endI (net.intersections.length + 1)
        [(start, [start])] [start.id] with _ | r
    · exact absurd hloop
        (PathFinder.bfs_loop_some_of_lt net endI hwf _ _ _ hfuel)
    · exact ⟨r, rfl, PathFinder.bfs_loop_spec net endI start.id _ _ _
        (bfs_initial_inv net start endI hse) r hloop⟩
  refine ⟨?_, ?_, ?_⟩
  · intro h
    unfold PathFinder.find_shortest_path
    rw [if_pos h]
  · intro hunreach
    by_cases hse : start.id = endI.id
    · exact absurd (hse ▸ RoadNetwork.Walk.nil start.id) (hunreach 0)
    · rcases hmain hse with ⟨r, hloop, hres⟩
      unfold PathFinder.find_shortest_path
      rw [if_neg hse, hloop]
      rcases hres with ⟨hr, _⟩ | ⟨hpath, _⟩
      · exact hr
      · exact absurd hpath.to_walk (hunreach _)
  · intro hse hreach
    rcases hmain hse with ⟨r, hloop, hres⟩
    unfold PathFinder.find_shortest_path
    rw [if_neg hse, hloop]
    dsimp only
    rcases hres with ⟨_, hnw⟩ | ⟨hpath, hmin⟩
    · rcases hreach with ⟨n, hn⟩
      exact absurd hn (hnw n)
    · have hlen1 : 1 ≤ r.length :=
        List.length_pos.mpr hpath.1
      refine ⟨hpath, r.length - 1, ?_, ?_, by omega⟩
      · have := hpath.to_walk
        exact this
      · intro k hk
        have := hmin k hk
        omega

/-- Witness for C5 at a concrete input: the two-node network exNetRoaded
whose single road joins exI0 to exI1, searched from exI0 to exI1. -/
theorem C5_find_shortest_path_witness :
    (exNetRoaded.WF ∧ exI0 ∈ exNetRoaded.intersections ∧
      exI0.id ≠ exI1.id ∧ exNetRoaded.Walk exI0.id exI1.id 1) ∧
    (IsPathTo exNetRoaded exI0.id exI1.id
      (PathFinder.find_shortest_path exNetRoaded exI0 exI1) ∧
    ∃ d, exNetRoaded.Walk exI0.id exI1.id d ∧
      (∀ k, exNetRoaded.Walk exI0.id exI1.id k → d ≤ k) ∧
      (PathFinder.find_shortest_path exNetRoaded exI0 exI1).length = d + 1) := by
  have hwf : exNetRoaded.WF := by
    intro r hr
    simp only [exNetRoaded, List.mem_singleton] at hr
    subst hr
    constructor
    · simp [exRoad, exNetRoaded]
    · simp [exRoad, exNetRoaded]
  have hedge : exNetRoaded.edge exI0.id exI1.id :=
    ⟨exRoad, List.mem_singleton_self _, rfl, rfl⟩
  have hwalk : exNetRoaded.Walk exI0.id exI1.id 1 :=
    RoadNetwork.Walk.cons hedge (RoadNetwork.Walk.nil exI1.id)
  have hs : exI0 ∈ exNetRoaded.intersections := by
    simp [exNetRoaded]
  have hne : exI0.id ≠ exI1.id := by
    simp [exI0, exI1]
  exact ⟨⟨hwf, hs, hne, hwalk⟩,
    (C5_find_shortest_path exNetRoaded exI0 exI1 hwf hs).2.2 hne ⟨1, hwalk⟩⟩

/-- A bare intersection with id 2. -/
def exI2 : Intersection := { id := 2 }

/-- A bare intersection with id 3. -/
def exI3 : Intersection := { id := 3 }

/-- A driving vehicle on a four-node route with committed progress 5/2,
about to carry over two full edges within one tick. -/
def exSpanVehicle : Vehicle :=
  { id := 0, current_intersection := exI0, speed := 36, state := .driving,
    path := [exI0, exI1, exI2, exI3], current_path_index := 0,
    progress_on_road := 5 / 2, current_road := none }

/-- The controller of exSpanVehicle. -/
def exSpan : VehicleController :=
  { vehicle := exSpanVehicle, network := exNet }

/-- Claim C4: once update has committed a progress value, the carry-over
loop repeatedly advances the vehicle to the next route node, carrying the
overshoot (progress minus one) onto the next road, so a tick whose
committed progress has integer part n either ends, when the route extends
that far, at route node index + n (the correct final intersection) with the
correct residual progress (the committed progress minus n), still driving;
or, when index + n reaches the final route index, ends arrived at the final
route node with the current road cleared and progress zeroed. -/
theorem C4_overshoot_carry (c : VehicleController)
    (hstate : c.vehicle.state = .driving)
    (hlt : c.vehicle.current_path_index < c.vehicle.path.length - 1)
    (hcur : c.vehicle.path[c.vehicle.current_path_index]? =
      some c.vehicle.current_intersection) :
    (c.vehicle.current_path_index + (⌊c.vehicle.progress_on_road⌋).toNat <
        c.vehicle.path.length - 1 →
      ∃ c', c.drive_loop = some c' ∧
        c'.vehicle.state = .driving ∧
        c'.vehicle.path = c.vehicle.path ∧
        c'.vehicle.current_path_index = c.vehicle.current_path_index +
          (⌊c.vehicle.progress_on_road⌋).toNat ∧
        c'.vehicle.progress_on_road = c.vehicle.progress_on_road -
          (⌊c.vehicle.progress_on_road⌋).toNat ∧
        c.vehicle.path[c.vehicle.current_path_index +
          (⌊c.vehicle.progress_on_road⌋).toNat]? =
          some c'.vehicle.current_intersection) ∧
    (c.vehicle.path.length - 1 ≤ c.vehicle.current_path_index +
        (⌊c.vehicle.progress_on_road⌋).toNat →
      ∃ c', c.drive_loop = some c' ∧
        c'.vehicle.state = .arrived ∧
        c'.vehicle.progress_on_road = 0 ∧
        c'.vehicle.current_road = none ∧
        c'.vehicle.path = c.vehicle.path ∧
        c'.vehicle.current_path_index = c.vehicle.path.length - 1 ∧
        c.vehicle.path[c.vehicle.path.length - 1]? =
          some c'.vehicle.current_intersection) :=
  ⟨fun h => VehicleController.drive_loop_spans _ c hstate hcur rfl h,
   fun h => VehicleController.drive_loop_arrives _ c hstate hlt rfl h⟩

/-- Witness for C4 at a concrete input: exSpan with committed progress 5/2
on a four-node route; the loop carries over two edges and leaves the
vehicle driving at node index two with residual progress 1/2. -/
theorem C4_overshoot_carry_witness :
    (exSpan.vehicle.state = .driving ∧
      exSpan.vehicle.current_path_index < exSpan.vehicle.path.length - 1 ∧
      exSpan.vehicle.path[exSpan.vehicle.current_path_index]? =
        some exSpan.vehicle.current_intersection ∧
      exSpan.vehicle.current_path_index +
        (⌊exSpan.vehicle.progress_on_road⌋).toNat <
        exSpan.vehicle.path.length - 1) ∧
    (∃ c', exSpan.drive_loop = some c' ∧
      c'.vehicle.state = .driving ∧
      c'.vehicle.path = exSpan.vehicle.path ∧
      c'.vehicle.current_path_index = exSpan.vehicle.current_path_index +
        (⌊exSpan.vehicle.progress_on_road⌋).toNat ∧
      c'.vehicle.progress_on_road = exSpan.vehicle.progress_on_road -
        (⌊exSpan.vehicle.progress_on_road⌋).toNat ∧
      exSpan.vehicle.path[exSpan.vehicle.current_path_index +
        (⌊exSpan.vehicle.progress_on_road⌋).toNat]? =
        some c'.vehicle.current_intersection) := by
  have hfl : (⌊exSpan.vehicle.progress_on_road⌋).toNat = 2 := by
    have h52 : ⌊exSpan.vehicle.progress_on_road⌋ = 2 := by
      norm_num [exSpan, exSpanVehicle]
    rw [h52]
    rfl
  refine ⟨⟨rfl, by norm_num [exSpan, exSpanVehicle], rfl, ?_⟩, ?_⟩
  · rw [hfl]
    norm_num [exSpan, exSpanVehicle]
  · exact (C4_overshoot_carry exSpan rfl
      (by norm_num [exSpan, exSpanVehicle]) rfl).1
      (by rw [hfl]; norm_num [exSpan, exSpanVehicle])

end TrafficSim
